import Mathlib

/-!
# NaviGO agent core — shallow embedding

A shallow embedding of the turn-handling core of the NaviGO travel agent
(`backend/app/agent/nodes.py`, `backend/app/agent/graph.py`,
`backend/app/api/chat.py`, `backend/app/tools/google_docs.py`,
`backend/app/tools/google_calendar.py`, `backend/app/db.py`), together with
theorems checking the natural-language specification against it.

External capabilities (the Groq LLM, the Google/Amadeus HTTP services,
`json.loads`, the sqlite store) are modelled as explicit oracle/environment
parameters; everything the repository itself computes is translated
definition-by-definition from the Python source.
-/

namespace NaviGO

/-- `ToolCall`: one tool invocation requested by the model
(`tool_call["id"]`, `tool_call["name"]`, `tool_call["args"]`; the argument
map is kept opaque as a string since no routing decision inspects it). -/
structure ToolCall where
  id : String
  name : String
  args : String
deriving DecidableEq, Repr

/-- A transcript message, mirroring the langchain message kinds used by the
agent: `HumanMessage`, `AIMessage` (with its `tool_calls` list),
`ToolMessage` (with `tool_call_id`), `SystemMessage`. -/
inductive Message where
  | user (content : String)
  | ai (content : String) (tool_calls : List ToolCall)
  | tool (content : String) (tool_call_id : String)
  | system (content : String)
deriving DecidableEq, Repr

/-- What a tool implementation returns to `tool_node` when it does not raise:
a result dict, abstracted to whether it carries an `"error"` key, the error
text, an optional `"correction_hint"`, and its `json.dumps` rendering. -/
structure ToolRet where
  hasError : Bool
  errorText : String
  hint : Option String
  content : String
deriving DecidableEq, Repr

/-- Outcome of invoking a tool implementation: a returned dict, or a raised
exception with its `str(e)` message (`tool_node` catches the latter). -/
inductive ExecResult where
  | ret (r : ToolRet)
  | exn (msg : String)
deriving DecidableEq, Repr

/-- One element of the `results` list built by `tool_node`
(`{"tool": tool_name, **result}`). -/
structure ResultEntry where
  tool : String
  hasError : Bool
  errorText : String
  hint : Option String
deriving DecidableEq, Repr

/-- A `ToolMessage` appended to the transcript by `tool_node`. -/
structure ToolMsg where
  content : String
  tool_call_id : String
deriving DecidableEq, Repr

/-- Names of the tools registered in `ALL_TOOLS` (nodes.py): the keys of the
`tool_map` that `tool_node` consults. -/
def allToolNames : List String :=
  ["search_flights", "search_airport_by_city", "search_aircraft_by_callsign",
   "search_aircraft_by_registration", "create_trip_document", "create_calendar_event"]

/-- `json.dumps({"error": s})`, the content given to a `ToolMessage` when the
result dict is an error dict built by `tool_node` itself. -/
def jsonError (s : String) : String :=
  "\x7b\"error\": \"" ++ s ++ "\"\x7d"

/-- The result entry `tool_node` builds for an error dict of its own
(`{"error": msg}` merged with the tool name). -/
def errEntry (toolName msg : String) : ResultEntry :=
  { tool := toolName, hasError := true, errorText := msg, hint := none }

/-- An observable interaction with an external Google service (network
traffic caused by a Google tool): building an authorized service client
(which may refresh credentials over the network), creating a document,
Places/Weather lookups, document edits/sharing, calendar insertion. -/
inductive GoogleEffect where
  | docsService
  | driveService
  | calendarService
  | docsCreate (title : String)
  | placesSearch (query : String)
  | weatherLookup (days : Nat)
  | docsBatchUpdate (docId : String)
  | drivePermission (docId : String)
  | calendarInsert (summary : String)
deriving DecidableEq, Repr

/-- The per-user Google OAuth capability token; `none` models the falsy
Python values (`None` or the empty dict) that `conf.get("google_token", {})`
can produce when no token is available for the session. -/
structure GoogleToken where
  access_token : String
deriving DecidableEq, Repr

/-- Outcome of the dispatcher's whole invocation of one tool: the returned
or raised result together with the trace of external Google-service
interactions the tool performed. -/
def ExecOutcome := ExecResult × List GoogleEffect

/-- Body of the `for tool_call in last_message.tool_calls` loop of
`tool_node` for one call: resolve the tool in `tool_map`
(`{"error": f"Unknown tool: {tool_name}"}` when absent), otherwise invoke it
through the `exec` oracle, converting a raised exception into
`{"error": f"Tool execution failed: {str(e)}"}`.  Returns the result entry,
the appended `ToolMessage`, the list of tool functions actually invoked
(empty for an unknown tool, whose execution is never attempted), and the
Google-service effects performed. -/
def dispatchOne (exec : ToolCall → ExecOutcome) (c : ToolCall) :
    ResultEntry × ToolMsg × List ToolCall × List GoogleEffect :=
  if c.name ∈ allToolNames then
    match exec c with
    | (.ret r, effs) =>
        ({ tool := c.name, hasError := r.hasError, errorText := r.errorText, hint := r.hint },
         { content := r.content, tool_call_id := c.id }, [c], effs)
    | (.exn m, effs) =>
        (errEntry c.name ("Tool execution failed: " ++ m),
         { content := jsonError ("Tool execution failed: " ++ m), tool_call_id := c.id }, [c], effs)
  else
    (errEntry c.name ("Unknown tool: " ++ c.name),
     { content := jsonError ("Unknown tool: " ++ c.name), tool_call_id := c.id }, [], [])

/-- The dispatch loop of `tool_node`: every call in the batch is processed in
issue order, accumulating `results`, `tool_messages`, the trace of tool
functions actually invoked, and the external effects performed. -/
def dispatchCalls (exec : ToolCall → ExecOutcome) :
    List ToolCall → List ResultEntry × List ToolMsg × List ToolCall × List GoogleEffect
  | [] => ([], [], [], [])
  | c :: rest =>
      let (e, m, t, g) := dispatchOne exec c
      let (es, ms, ts, gs) := dispatchCalls exec rest
      (e :: es, m :: ms, t ++ ts, g ++ gs)

/-- `tool_node` (nodes.py): if the last message is not an `AIMessage` with
tool calls it returns `{}` (no messages, no results); otherwise it dispatches
every requested call. -/
def tool_node (exec : ToolCall → ExecOutcome) (lastMessage : Message) :
    List ResultEntry × List ToolMsg × List ToolCall × List GoogleEffect :=
  match lastMessage with
  | .ai _ tool_calls =>
      if tool_calls.isEmpty then ([], [], [], []) else dispatchCalls exec tool_calls
  | _ => ([], [], [], [])

/-! ## Python string primitives

Character-level embeddings of the Python string operations the tool helpers
use (`str.upper`, `str.strip`, f-string decimal rendering, `re` digit/space
classes restricted to ASCII, which is all the rendered strings contain). -/

/-- ASCII digit characters (the `\d` class on the strings at hand). -/
def digitChars : List Char := ['0', '1', '2', '3', '4', '5', '6', '7', '8', '9']

/-- Is `c` an ASCII digit? -/
def isDig (c : Char) : Bool := digitChars.contains c

/-- Python/regex whitespace characters (`\s`, `str.strip` on ASCII text). -/
def wsChars : List Char := [' ', '\t', '\n', '\r', '\x0b', '\x0c']

/-- Is `c` whitespace? -/
def isWs (c : Char) : Bool := wsChars.contains c

/-- `str.upper` on one ASCII character. -/
def pyUpperChar (c : Char) : Char :=
  if 'a' ≤ c ∧ c ≤ 'z' then Char.ofNat (c.toNat - 32) else c

/-- `str.upper` over a character list. -/
def pyUpper (l : List Char) : List Char := l.map pyUpperChar

/-- `str.strip`: drop whitespace from both ends. -/
def pyStrip (l : List Char) : List Char :=
  (((l.dropWhile isWs).reverse).dropWhile isWs).reverse

/-- `str.strip` on a `String`. -/
def pyStripS (s : String) : String := String.mk (pyStrip s.data)

/-- The decimal digit character for `n ∈ [0, 9]`. -/
def digitChar : Nat → Char
  | 0 => '0' | 1 => '1' | 2 => '2' | 3 => '3' | 4 => '4'
  | 5 => '5' | 6 => '6' | 7 => '7' | 8 => '8' | 9 => '9'
  | _ => '*'

/-- Fuel-indexed decimal rendering of a natural number (the f-string
`f"{n}"`); `fuel` bounds the number of digits produced. -/
def natReprAux : Nat → Nat → List Char
  | 0, _ => []
  | fuel + 1, n =>
      if n < 10 then [digitChar n]
      else natReprAux fuel (n / 10) ++ [digitChar (n % 10)]

/-- Decimal rendering of a natural number, as Python f-strings print it. -/
def natRepr (n : Nat) : List Char := natReprAux (n + 1) n

/-- Value of a run of decimal digits (`int(...)` on a `\d+` regex group). -/
def digitsVal (l : List Char) : Nat :=
  l.foldl (fun a c => 10 * a + (c.toNat - 48)) 0

/-- `\s*`: skip leading whitespace. -/
def skipSpaces (l : List Char) : List Char := l.dropWhile isWs

/-- Split a leading `\d+` run: `(takeWhile isDig, dropWhile isDig)`. -/
def spanDigits (l : List Char) : List Char × List Char :=
  (l.takeWhile isDig, l.dropWhile isDig)

/-! ## google_docs.py — duration helpers -/

/-- One optional `(\d+)X` group of the ISO duration regex: consumed when a
digit run directly followed by the marker is present, otherwise the position
backtracks to `fallback`. -/
def isoGroup (marker : Char) (fallback d1 r1 : List Char) : Nat × List Char :=
  match d1, r1 with
  | _ :: _, c :: r => if c = marker then (digitsVal d1, r) else (0, fallback)
  | _, _ => (0, fallback)

/-- Tail of the ISO-8601 duration regex `^PT(?:(\d+)H)?(?:(\d+)M)?$` after
the literal `PT`: an optional digits-`H` group, an optional digits-`M`
group, then end of string. -/
def isoTail (rest : List Char) : Option Nat :=
  let s := spanDigits rest
  let gh := isoGroup 'H' rest s.1 s.2
  let t := spanDigits gh.2
  let gm := isoGroup 'M' gh.2 t.1 t.2
  if gm.2 = [] then some (gh.1 * 60 + gm.1) else none

/-- The ISO-style branch of `_duration_to_minutes`:
`re.match(r"^PT(?:(\d+)H)?(?:(\d+)M)?$", s)` with
`hours * 60 + minutes` on success. -/
def parseIso (l : List Char) : Option Nat :=
  match l with
  | p :: t :: rest => if p = 'P' ∧ t = 'T' then isoTail rest else none
  | _ => none

/-- One optional `(\d+)\s*X` group of the friendly duration regex: consumed
when a digit run followed by optional spaces and the marker is present,
otherwise the position backtracks to `fallback`. -/
def friendlyGroup (marker : Char) (fallback d1 r1 : List Char) : Option Nat × List Char :=
  match d1 with
  | [] => ((none : Option Nat), fallback)
  | _ :: _ =>
      match skipSpaces r1 with
      | c :: r => if c = marker then (some (digitsVal d1), r) else (none, fallback)
      | [] => (none, fallback)

/-- The friendly-style branch of `_duration_to_minutes`:
`re.match(r"^(?:(\d+)\s*H)?\s*(?:(\d+)\s*M)?$", s)`, succeeding only when at
least one of the two groups matched (`group(1) or group(2)`). -/
def parseFriendly (l : List Char) : Option Nat :=
  let s := spanDigits l
  let gh := friendlyGroup 'H' l s.1 s.2
  let r2 := skipSpaces gh.2
  let t := spanDigits r2
  let gm := friendlyGroup 'M' r2 t.1 t.2
  if gm.2 = [] ∧ (gh.1.isSome ∨ gm.1.isSome) then
    some ((gh.1.getD 0) * 60 + (gm.1.getD 0))
  else none

/-- `_duration_to_minutes` (google_docs.py): `None`/empty input is rejected,
the text is stripped and upper-cased, the ISO pattern is tried first, then
the friendly pattern. -/
def duration_to_minutes (duration : Option String) : Option Nat :=
  match duration with
  | none => none
  | some d =>
      if d = "" then none
      else
        let s := pyUpper (pyStrip d.data)
        match parseIso s with
        | some n => some n
        | none => parseFriendly s

/-- `_minutes_to_text` (google_docs.py): render a minute count as `"37m"`,
`"2h"`, or `"2h 5m"`; `None` renders as `"N/A"`. -/
def minutes_to_text (total_minutes : Option Nat) : String :=
  match total_minutes with
  | none => "N/A"
  | some m =>
      let hours := m / 60
      let minutes := m % 60
      if hours = 0 then String.mk (natRepr minutes) ++ "m"
      else if minutes = 0 then String.mk (natRepr hours) ++ "h"
      else String.mk (natRepr hours) ++ "h " ++ String.mk (natRepr minutes) ++ "m"

/-! ## Dates (`datetime.strptime(text, "%Y-%m-%d")` and friends) -/

/-- A Gregorian calendar date as `datetime.date` holds it. -/
structure PyDate where
  year : Nat
  month : Nat
  day : Nat
deriving DecidableEq, Repr

/-- Gregorian leap-year rule. -/
def isLeap (y : Nat) : Bool := (y % 4 = 0 ∧ y % 100 ≠ 0) ∨ y % 400 = 0

/-- Days in a month of a given year. -/
def daysInMonth (y m : Nat) : Nat :=
  if m = 2 then (if isLeap y then 29 else 28)
  else if m = 4 ∨ m = 6 ∨ m = 9 ∨ m = 11 then 30
  else 31

/-- Days in the months of `y` strictly before month `m`. -/
def daysBeforeMonth (y m : Nat) : Nat :=
  (List.range (m - 1)).foldl (fun a i => a + daysInMonth y (i + 1)) 0

/-- Rata-die day number of a date (for `(ret - dep).days`). -/
def rataDie (d : PyDate) : Nat :=
  365 * (d.year - 1) + (d.year - 1) / 4 - (d.year - 1) / 100 + (d.year - 1) / 400
    + daysBeforeMonth d.year d.month + d.day

/-- `datetime.date` ordering (lexicographic on year, month, day). -/
def dateLt (a b : PyDate) : Bool :=
  a.year < b.year ∨ (a.year = b.year ∧ (a.month < b.month ∨ (a.month = b.month ∧ a.day < b.day)))

/-- `_parse_date` (google_docs.py): `datetime.strptime(text, "%Y-%m-%d")`
with `None` on failure (zero-padded month/day form, as the agent supplies). -/
def parse_date (text : String) : Option PyDate :=
  match text.data with
  | [y1, y2, y3, y4, h1, m1, m2, h2, d1, d2] =>
      if h1 = '-' ∧ h2 = '-' ∧ ([y1, y2, y3, y4, m1, m2, d1, d2].all isDig) then
        let y := digitsVal [y1, y2, y3, y4]
        let m := digitsVal [m1, m2]
        let d := digitsVal [d1, d2]
        if 1 ≤ m ∧ m ≤ 12 ∧ 1 ≤ d ∧ d ≤ daysInMonth y m then some ⟨y, m, d⟩ else none
      else none
  | _ => none

/-- Left-pad a decimal rendering with zeros to width `w` (`strftime` `%m`/`%d`/`%Y`). -/
def padZero (w : Nat) (n : Nat) : List Char :=
  let ds := natRepr n
  List.replicate (w - ds.length) '0' ++ ds

/-- `date.strftime("%Y-%m-%d")`. -/
def formatDate (d : PyDate) : String :=
  String.mk (padZero 4 d.year) ++ "-" ++ String.mk (padZero 2 d.month) ++ "-"
    ++ String.mk (padZero 2 d.day)

/-- English month abbreviations for `strftime("%b")`. -/
def monthAbbrev (m : Nat) : String :=
  match m with
  | 1 => "Jan" | 2 => "Feb" | 3 => "Mar" | 4 => "Apr" | 5 => "May" | 6 => "Jun"
  | 7 => "Jul" | 8 => "Aug" | 9 => "Sep" | 10 => "Oct" | 11 => "Nov" | 12 => "Dec"
  | _ => "?"

/-- `_pretty_date` (google_docs.py): `dt.strftime("%b %d, %Y")`, or the raw
text when parsing fails. -/
def pretty_date (text : String) : String :=
  match parse_date text with
  | some d =>
      monthAbbrev d.month ++ " " ++ String.mk (padZero 2 d.day) ++ ", "
        ++ String.mk (padZero 4 d.year)
  | none => text

/-- `dt + timedelta(days=1)` on a calendar date. -/
def addOneDay (d : PyDate) : PyDate :=
  if d.day < daysInMonth d.year d.month then { d with day := d.day + 1 }
  else if d.month < 12 then { year := d.year, month := d.month + 1, day := 1 }
  else { year := d.year + 1, month := 1, day := 1 }

/-! ## google_docs.py / google_calendar.py — capability-token tools

The two tools that require the per-user Google OAuth token.  External
services (Google Docs/Drive/Places/Weather/Calendar) answer through an
environment record, and every interaction with them is recorded as a
`GoogleEffect`; the JSON/float-heavy pure rendering of flight options
(`_extract_flight_list`, `_render_flight_option`, `_rank_flights`), which no
claim's sentence depends on, is likewise supplied by opaque environment
renderers.  Control flow, guard order and effect order follow the source. -/

/-- Arguments of `create_trip_document`. -/
structure TripDocArgs where
  destination : String
  origin : String
  departure_date : String
  adults : Nat
  flights : String
  return_date : String
  preferences : String
deriving DecidableEq, Repr

/-- Result of `_fetch_destination_highlights`. -/
structure Highlights where
  city : String
  hasLocation : Bool
  sections : List (String × List String)
  note : String
deriving DecidableEq, Repr

/-- Environment for `create_trip_document`: configuration, external-service
responses, and opaque pure renderers for the flight payload. -/
structure DocsEnv where
  placesApiKey : Option String
  docId : String
  centerFound : Bool
  sectionLines : String → List String
  weatherLines : List String
  flightOptionLines : String → List String
  rankingLines : String → String → List String
  cleanCity : String → String

/-- Environment for `create_calendar_event`: the created event as the
Calendar service reports it. -/
structure CalEnv where
  eventHtmlLink : String
  eventId : String

/-- The error dict both Google tools return when no capability token is
available: `{"error": "Google authentication required. ..."}`. -/
def authRequiredMsg : String :=
  "Google authentication required. Please connect your Google account in the sidebar."

/-- The `ToolRet` for the authorization-required error dict. -/
def authRequiredRet : ToolRet :=
  { hasError := true, errorText := authRequiredMsg, hint := none,
    content := jsonError authRequiredMsg }

/-- `_fetch_destination_highlights` (google_docs.py): no Places API key →
no lookup at all; otherwise one city-center search plus one search per
section (each section guarded by its own `try`). -/
def fetch_destination_highlights (env : DocsEnv) (destination : String) :
    Highlights × List GoogleEffect :=
  match env.placesApiKey with
  | none =>
      ({ city := env.cleanCity destination, hasLocation := false, sections := [],
         note := "Places API key not configured." }, [])
  | some _ =>
      let city := env.cleanCity destination
      let centerQuery := city ++ " city center"
      let sectionQueries : List (String × String) :=
        [("Top attractions", "top attractions in " ++ city),
         ("Food picks", "best local restaurants in " ++ city),
         ("Neighborhoods", "best neighborhoods to visit in " ++ city)]
      let sections := sectionQueries.map (fun sq => (sq.1, (env.sectionLines sq.2).take 3))
      let effects := GoogleEffect.placesSearch centerQuery ::
        sectionQueries.map (fun sq => GoogleEffect.placesSearch sq.2)
      ({ city := city, hasLocation := env.centerFound, sections := sections, note := "" },
       effects)

/-- Result of `_fetch_weather_snapshot`. -/
structure WeatherRes where
  lines : List String
  note : String
deriving DecidableEq, Repr

/-- `_fetch_weather_snapshot` (google_docs.py): guarded on the API key, the
destination coordinates and a parseable departure date before a single
`days:lookup` call for `max(3, min(trip_days, 10))` days. -/
def fetch_weather_snapshot (env : DocsEnv) (hasLocation : Bool)
    (departure_date return_date : String) : WeatherRes × List GoogleEffect :=
  match env.placesApiKey with
  | none => ({ lines := [], note := "Weather API key not configured." }, [])
  | some _ =>
      if !hasLocation then
        ({ lines := [], note := "Weather lookup unavailable (destination coordinates missing)." }, [])
      else
        match parse_date departure_date with
        | none =>
            ({ lines := [], note := "Weather lookup unavailable (invalid departure date)." }, [])
        | some dep =>
            let ret0 := if return_date ≠ "" then parse_date return_date else some dep
            let ret := match ret0 with
              | none => dep
              | some r => if dateLt r dep then dep else r
            let trip_days := max (rataDie ret - rataDie dep + 1) 1
            let fetch_days := max 3 (min trip_days 10)
            let res :=
              if env.weatherLines ≠ [] then { lines := env.weatherLines, note := "" }
              else
                { lines := [],
                  note := "Short-range weather forecast for your exact travel dates is not available yet. Recheck closer to departure." }
            (res, [GoogleEffect.weatherLookup fetch_days])

/-- `_build_day_by_day_plan` (google_docs.py). -/
def build_day_by_day_plan (city : String) (days : Nat)
    (highlights : List (String × List String)) : List String :=
  if days ≤ 1 then
    ["- Day 1: Arrive in " ++ city ++ ", keep plans flexible, and focus on a smooth transfer/check-in."]
  else
    let namesOf : String → List String := fun section_name =>
      ((highlights.lookup section_name).getD []).map
        (fun line => (((line.splitOn " - ").headD "").replace "- " "").trim)
    let attraction_names := namesOf "Top attractions"
    let neighborhood_names := namesOf "Neighborhoods"
    let food_names := namesOf "Food picks"
    let middle := (List.range (days - 2)).map (fun idx =>
      let attraction := attraction_names.getD (idx % max attraction_names.length 1) "a top attraction"
      let neighborhood := neighborhood_names.getD (idx % max neighborhood_names.length 1) "a lively district"
      let food := food_names.getD (idx % max food_names.length 1) "a well-rated local restaurant"
      "- Day " ++ String.mk (natRepr (idx + 2)) ++ ": Morning at " ++ attraction
        ++ "; afternoon in " ++ neighborhood ++ "; dinner at " ++ food ++ ".")
    (("- Day 1: Arrive in " ++ city ++ ", hotel check-in, and a light evening walk.") :: middle)
      ++ ["- Day " ++ String.mk (natRepr days) ++ ": Checkout, transfer to airport, and return flight."]

/-- `create_trip_document` (google_docs.py): the capability-token guard is
the first statement of the `try` body — with no token the tool returns the
authorization-required error dict before building any service client or
touching any external service.  With a token it builds the Docs and Drive
clients, creates the document, gathers highlights and weather, assembles the
body, inserts it, and shares the document. -/
def create_trip_document (env : DocsEnv) (token : Option GoogleToken) (a : TripDocArgs) :
    ToolRet × List GoogleEffect :=
  match token with
  | none => (authRequiredRet, [])
  | some _ =>
      let dep_dt := parse_date a.departure_date
      let ret_raw := if a.return_date ≠ "" then parse_date a.return_date else dep_dt
      let ret_dt := match dep_dt, ret_raw with
        | some d, some r => some (if dateLt r d then d else r)
        | _, r => r
      let trip_days := match dep_dt, ret_dt with
        | some d, some r => max (rataDie r - rataDie d + 1) 1
        | _, _ => 1
      let title := "NaviGO Itinerary: " ++ a.origin ++ " -> " ++ a.destination
        ++ " (" ++ a.departure_date ++ ")"
      let doc_id := env.docId
      let flight_option_lines := env.flightOptionLines a.flights
      let ranking_lines := env.rankingLines a.flights a.preferences
      let (dc, placesEffects) := fetch_destination_highlights env a.destination
      let (wc, weatherEffects) := fetch_weather_snapshot env dc.hasLocation a.departure_date
        (if a.return_date ≠ "" then a.return_date else a.departure_date)
      let day_plan := build_day_by_day_plan dc.city trip_days dc.sections
      let body_lines :=
        ["TRIP ITINERARY", "Generated by NaviGO AI Travel Agent", "", "TRIP DETAILS",
         "- Origin: " ++ a.origin, "- Destination: " ++ a.destination,
         "- Departure: " ++ pretty_date a.departure_date,
         "- Return: " ++ (if a.return_date ≠ "" then pretty_date a.return_date else "One-way"),
         "- Travelers: " ++ String.mk (natRepr a.adults) ++ " adult(s)",
         "- Preferences: " ++ (if a.preferences ≠ "" then a.preferences else "None specified"),
         "", "FLIGHT OPTIONS"]
        ++ (if flight_option_lines ≠ [] then flight_option_lines else ["- No flight data available."])
        ++ ["", "BOOKING RECOMMENDATION"] ++ ranking_lines.map (fun l => "- " ++ l)
        ++ ["", "DESTINATION HIGHLIGHTS"]
        ++ (if dc.sections ≠ [] then
              dc.sections.foldr (fun s acc =>
                if s.2 ≠ [] then (s.1 ++ ":") :: s.2 ++ acc else acc) []
            else ["- No place recommendations available."])
        ++ (if dc.note ≠ "" then ["- Note: " ++ dc.note] else [])
        ++ ["", "WEATHER SNAPSHOT"]
        ++ (if wc.lines ≠ [] then wc.lines else ["- " ++ (if wc.note ≠ "" then wc.note else "Weather data unavailable.")])
        ++ ["", "SUGGESTED DAY-BY-DAY PLAN"] ++ day_plan
        ++ ["", "TRAVEL CHECKLIST",
            "- Confirm passport/ID validity and visa requirements.",
            "- Book airport transfers.",
            "- Save accommodation and flight confirmations offline.",
            "- Add emergency contacts and travel insurance details."]
      let doc_url := "https://docs.google.com/document/d/" ++ doc_id ++ "/edit"
      let content := "\x7b\"success\": true, \"doc_url\": \"" ++ doc_url ++ "\", \"doc_id\": \""
        ++ doc_id ++ "\", \"title\": \"" ++ title ++ "\"\x7d"
      let _ := String.intercalate "\n" body_lines ++ "\n"
      ({ hasError := false, errorText := "", hint := none, content := content },
       [GoogleEffect.docsService, GoogleEffect.driveService, GoogleEffect.docsCreate title]
         ++ placesEffects ++ weatherEffects
         ++ [GoogleEffect.docsBatchUpdate doc_id, GoogleEffect.drivePermission doc_id])

/-- Arguments of `create_calendar_event`. -/
structure CalendarArgs where
  destination : String
  origin : String
  departure_date : String
  return_date : String
  doc_url : String
  notes : String
deriving DecidableEq, Repr

/-- `create_calendar_event` (google_calendar.py): the capability-token guard
is the first statement of the `try` body — with no token the tool returns
the authorization-required error dict before building the Calendar client or
inserting any event.  With a token it builds the client, computes the
exclusive all-day end date, and inserts the event. -/
def create_calendar_event (env : CalEnv) (token : Option GoogleToken) (a : CalendarArgs) :
    ToolRet × List GoogleEffect :=
  match token with
  | none => (authRequiredRet, [])
  | some _ =>
      let description :=
        "✈️ Trip planned by NaviGO AI Travel Agent\n\nRoute: " ++ a.origin ++ " → "
          ++ a.destination ++ " → " ++ a.origin ++ "\n"
          ++ (if a.doc_url ≠ "" then "\n📄 Full Itinerary: " ++ a.doc_url ++ "\n" else "")
          ++ (if a.notes ≠ "" then "\n📝 Notes: " ++ a.notes ++ "\n" else "")
          ++ "\nSafe travels! 🌍"
      let end_date :=
        if a.return_date ≠ "" then
          match parse_date a.return_date with
          | some d => formatDate (addOneDay d)
          | none => a.return_date
        else
          match parse_date a.departure_date with
          | some d => formatDate (addOneDay d)
          | none => a.departure_date
      let summary := "✈️ Trip to " ++ a.destination
      let _ := description
      let _ := end_date
      let content := "\x7b\"success\": true, \"event_url\": \"" ++ env.eventHtmlLink
        ++ "\", \"event_id\": \"" ++ env.eventId ++ "\", \"summary\": \"" ++ summary ++ "\"\x7d"
      ({ hasError := false, errorText := "", hint := none, content := content },
       [GoogleEffect.calendarService, GoogleEffect.calendarInsert summary])

/-- How `tool_node` actually invokes the registered tools: the two Google
tools receive the session's capability token through `config["configurable"]`
and run their modelled bodies; every other registered tool runs through the
`other` oracle and, not being a Google tool, performs no Google-service
effect.  Argument dicts are decoded from their opaque string form by the
`dArgs`/`cArgs` parsers. -/
def execRegistered (denv : DocsEnv) (cenv : CalEnv) (other : ToolCall → ExecResult)
    (dArgs : String → TripDocArgs) (cArgs : String → CalendarArgs)
    (token : Option GoogleToken) (c : ToolCall) : ExecOutcome :=
  if c.name = "create_trip_document" then
    let (r, effs) := create_trip_document denv token (dArgs c.args)
    (.ret r, effs)
  else if c.name = "create_calendar_event" then
    let (r, effs) := create_calendar_event cenv token (cArgs c.args)
    (.ret r, effs)
  else (other c, [])

/-- Does this registered tool require the Google capability token? -/
def requiresToken (name : String) : Bool :=
  name = "create_trip_document" ∨ name = "create_calendar_event"

/-! ## The turn state machine (nodes.py routing + graph.py wiring + chat.py)

The LangGraph `StateGraph` built in `build_graph`:
`agent → (should_use_tools) → tools | extract_preferences`,
`tools → (should_correct) → self_correction | agent`,
`self_correction → tools`, `extract_preferences → END`,
entered at `agent`.  The Groq LLM is an oracle `llm`; its prompt text
(`REACT_SYSTEM_PROMPT`) and the store-derived context block are opaque
configuration strings. -/

/-- `MAX_RETRIES` (nodes.py). -/
def MAX_RETRIES : Nat := 2

/-- The agent graph state (`AgentState`, state.py); `trip_info` is kept as
an opaque JSON view since no routing decision inspects it. -/
structure AgentState where
  messages : List Message
  trip_info : String
  tool_results : List ResultEntry
  plan_steps : List String
  retry_count : Nat
  google_token : Option GoogleToken
  session_id : String
  user_id : String
  user_confirmed_creation : Bool
deriving DecidableEq, Repr

/-- The oracle/configuration environment of one turn: the reasoning backend
(`invoke_with_fallback`, already including its fallback-key retry), the tool
implementations, the system prompt text, and the context block the agent
node assembles from trip info and stored preferences. -/
structure TurnEnv where
  llm : List Message → String × List ToolCall
  exec : ToolCall → ExecOutcome
  systemPrompt : String
  contextBlock : String

/-- `agent_node` (nodes.py): truncate history to the last 12 messages,
prepend the system prompt with the injected context, call the model, and
append its `AIMessage` to the transcript. -/
def agent_node (env : TurnEnv) (st : AgentState) : AgentState :=
  let recent := st.messages.drop (st.messages.length - 12)
  let sys := Message.system (env.systemPrompt ++ env.contextBlock)
  let (content, calls) := env.llm (sys :: recent)
  { st with messages := st.messages ++ [Message.ai content calls] }

/-- `should_use_tools` (nodes.py): route to `"tools"` iff the last message
is an `AIMessage` with at least one tool call. -/
def should_use_tools (st : AgentState) : Bool :=
  match st.messages.getLast? with
  | some (Message.ai _ tool_calls) => !tool_calls.isEmpty
  | _ => false

/-- The `tools` graph node: `tool_node` applied to the last message, its
tool messages appended to the transcript and its results replacing
`tool_results` (a `{}` return leaves the state unchanged). -/
def tools_node_step (env : TurnEnv) (st : AgentState) : AgentState :=
  match st.messages.getLast? with
  | some (Message.ai _ calls) =>
      if calls.isEmpty then st
      else
        let (results, msgs, _, _) := dispatchCalls env.exec calls
        { st with
            messages := st.messages ++ msgs.map (fun m => Message.tool m.content m.tool_call_id),
            tool_results := results }
  | _ => st

/-- `should_correct` (nodes.py): route to `"self_correction"` iff some
result carries an `"error"` key and `retry_count < MAX_RETRIES`. -/
def should_correct (st : AgentState) : Bool :=
  (st.tool_results.any (·.hasError)) ∧ st.retry_count < MAX_RETRIES

/-- The ASCII apostrophe, used when quoting tool names in the correction
prompt. -/
def sq : String := String.singleton (Char.ofNat 39)

/-- The correction instruction `self_correction_node` builds: a summary line
per failed tool, a hint line per attached `correction_hint`, and the retry
counter rendered against `MAX_RETRIES`. -/
def correction_prompt (errors : List ResultEntry) (retry_count : Nat) : String :=
  let error_summary := String.intercalate "\n"
    (errors.map (fun e => "- Tool " ++ sq ++ e.tool ++ sq ++ " failed: " ++ e.errorText))
  let correction_hints := String.intercalate "\n"
    ((errors.filterMap (·.hint)).map (fun h => "  Hint: " ++ h))
  "The following tool calls failed:\n" ++ error_summary ++ "\n" ++ correction_hints
    ++ "\n\nThis is retry attempt " ++ String.mk (natRepr (retry_count + 1)) ++ " of "
    ++ String.mk (natRepr MAX_RETRIES)
    ++ ".\nPlease analyze what went wrong, correct your approach, and try again. "
    ++ "State your correction reasoning clearly before retrying."

/-- `self_correction_node` (nodes.py): with no failed results it returns
`{}` (state unchanged); otherwise it appends the synthetic correction
message, asks the model for a corrected `AIMessage`, appends it, and
increments `retry_count` by exactly 1. -/
def self_correction_node (env : TurnEnv) (st : AgentState) : AgentState :=
  let errors := st.tool_results.filter (·.hasError)
  if errors.isEmpty then st
  else
    let prompt_messages := Message.system env.systemPrompt :: st.messages
      ++ [Message.user (correction_prompt errors st.retry_count)]
    let (content, calls) := env.llm prompt_messages
    { st with
        messages := st.messages ++ [Message.ai content calls],
        retry_count := st.retry_count + 1 }

/-- `extract_preferences_node` as a graph step: it returns `{}` in every
case, so the in-memory turn state is unchanged (its durable writes are
modelled separately below). -/
def extract_step (st : AgentState) : AgentState := st

/-- The nodes of the compiled graph. -/
inductive Node where
  | agent
  | tools
  | correction
  | extract
deriving DecidableEq, Repr

/-- Conditional edge out of `agent`. -/
def nextAfterAgent (st : AgentState) : Node :=
  if should_use_tools st then Node.tools else Node.extract

/-- Conditional edge out of `tools`. -/
def nextAfterTools (st : AgentState) : Node :=
  if should_correct st then Node.correction else Node.agent

/-- Modelled from the spec: LangGraph's executor and its `recursion_limit`
enforcement live in the langgraph library, not in this repository; per the
spec's turn-controller section, the graph runs node after node along the
edges above and a hard per-turn step ceiling aborts the run with a
`GraphRecursionError` instead of looping forever.  `runTurn env fuel n st`
executes the graph from node `n` with `fuel` remaining super-steps,
returning the final state (`none` when the ceiling was exceeded) and the
trace of `(node, state-at-entry)` pairs in execution order. -/
def runTurn (env : TurnEnv) : Nat → Node → AgentState → Option AgentState × List (Node × AgentState)
  | 0, _, _ => (none, [])
  | fuel + 1, Node.agent, st =>
      let st' := agent_node env st
      let r := runTurn env fuel (nextAfterAgent st') st'
      (r.1, (Node.agent, st) :: r.2)
  | fuel + 1, Node.tools, st =>
      let st' := tools_node_step env st
      let r := runTurn env fuel (nextAfterTools st') st'
      (r.1, (Node.tools, st) :: r.2)
  | fuel + 1, Node.correction, st =>
      let st' := self_correction_node env st
      let r := runTurn env fuel Node.tools st'
      (r.1, (Node.correction, st) :: r.2)
  | _fuel + 1, Node.extract, st =>
      (some (extract_step st), [(Node.extract, st)])

/-- `"recursion_limit": 20` from the `config` dict of `chat_stream`
(chat.py). -/
def recursion_limit : Nat := 20

/-- The SSE events `event_generator` (chat.py) emits. -/
inductive StreamEvent where
  | token (text : String)
  | tool_start (tool : String)
  | tool_end (tool : String)
  | correction_in_progress
  | done (session_id : String) (final_text : String)
  | error (message : String)
deriving DecidableEq, Repr

/-- The events streamed for one executed node (model tokens for reasoning
nodes, tool start/end pairs for each dispatched call, the
`self_correction` progress event). -/
def eventsOfStep : Node × AgentState → List StreamEvent
  | (Node.agent, _) => [StreamEvent.token ""]
  | (Node.tools, st) =>
      match st.messages.getLast? with
      | some (Message.ai _ calls) =>
          (calls.map (fun c => StreamEvent.tool_start c.name))
            ++ (calls.map (fun c => StreamEvent.tool_end c.name))
      | _ => []
  | (Node.correction, _) => [StreamEvent.correction_in_progress]
  | (Node.extract, _) => []

/-- The accumulated final text: content of the last `AIMessage` of the
transcript (what the `streamed_text` chunks add up to). -/
def final_text (st : AgentState) : String :=
  (st.messages.foldl (fun acc m => match m with
    | Message.ai c tool_calls => if tool_calls.isEmpty then c else acc
    | _ => acc) "")

/-- The initial turn state `chat_stream` builds for a request. -/
def initial_state (session_id user_id message : String) (token : Option GoogleToken) : AgentState :=
  { messages := [Message.user message], trip_info := "", tool_results := [],
    plan_steps := [], retry_count := 0, google_token := token,
    session_id := session_id, user_id := user_id, user_confirmed_creation := false }

/-- `event_generator` (chat.py): stream the graph's events and finish with
the `done` event; any exception out of the stream — in particular the
`GraphRecursionError` raised when the `recursion_limit` ceiling is
exceeded — is caught and surfaced as a final `error` event instead. -/
def event_generator (env : TurnEnv) (session_id user_id message : String)
    (token : Option GoogleToken) : List StreamEvent :=
  let st0 := initial_state session_id user_id message token
  match runTurn env recursion_limit Node.agent st0 with
  | (some stF, tr) =>
      (tr.map eventsOfStep).flatten ++ [StreamEvent.done session_id (final_text stF)]
  | (none, tr) =>
      (tr.map eventsOfStep).flatten
        ++ [StreamEvent.error "GraphRecursionError: Recursion limit of 20 reached without hitting a stop condition."]

/-! ## extract_preferences_node — preference facts and merges -/

/-- A structured preference fact as built by `_build_preference_fact`
(nodes.py); confidence is an exact rational. -/
structure PrefFact where
  pref_key : String
  pref_value : String
  source : String
  confidence : ℚ
  evidence : String
deriving DecidableEq, Repr

/-- `_build_preference_fact` (nodes.py): the evidence snippet is the slice
`evidence[:240]`. -/
def build_preference_fact (key value source : String) (confidence : ℚ) (evidence : String) :
    PrefFact :=
  { pref_key := key, pref_value := value, source := source, confidence := confidence,
    evidence := String.mk (evidence.data.take 240) }

/-- Python word characters (`\w`, ASCII): letters, digits, underscore. -/
def isWordChar (c : Char) : Bool := c.isAlphanum ∨ c = '_'

/-- `str.lower` on one ASCII character. -/
def pyLowerChar (c : Char) : Char :=
  if 'A' ≤ c ∧ c ≤ 'Z' then Char.ofNat (c.toNat + 32) else c

/-- `str.lower` over a character list. -/
def pyLower (l : List Char) : List Char := l.map pyLowerChar

/-- Strip `pat` off the front of `text`, returning the remainder. -/
def stripPat : List Char → List Char → Option (List Char)
  | [], rest => some rest
  | _ :: _, [] => none
  | p :: ps, c :: cs => if p = c then stripPat ps cs else none

/-- Does `pat` match at the current position, with `\b` word boundaries on
both sides (`prev` is the character just before the position)? -/
def boundaryHit (pat : List Char) (prev : Option Char) (text : List Char) : Bool :=
  (match prev with | none => true | some c => !isWordChar c) &&
  (match stripPat pat text with
   | some [] => true
   | some (c :: _) => !isWordChar c
   | none => false)

/-- `re.search(r"\b(pat)\b", text)` for one literal alternative: scan every
position for a boundary-delimited occurrence. -/
def wordMatch (pat : List Char) : Option Char → List Char → Bool
  | prev, [] => boundaryHit pat prev []
  | prev, c :: cs => boundaryHit pat prev (c :: cs) || wordMatch pat (some c) cs

/-- `re.search` for an alternation of literal words with `\b` anchors. -/
def anyWordPat (text : List Char) (pats : List String) : Bool :=
  pats.any (fun p => wordMatch p.data none text)

/-- Plain substring containment (Python `in` on strings). -/
def containsSub : List Char → List Char → Bool
  | [], pat => (stripPat pat ([] : List Char)).isSome
  | c :: cs, pat => (stripPat pat (c :: cs)).isSome || containsSub cs pat

/-- `_infer_preference_facts_from_text` (nodes.py): the four lightweight
pattern rules — price priority, time priority, stop-count priority, seat
preference — at confidence 0.85 for `source="explicit"` and 0.75
otherwise. -/
def infer_preference_facts_from_text (text : String) (source : String) : List PrefFact :=
  let lowered := pyLower text.data
  let conf : ℚ := if source = "explicit" then mkRat 85 100 else mkRat 75 100
  (if anyWordPat lowered ["cheapest", "lowest price", "lowest fare", "budget option", "most affordable"]
   then [build_preference_fact "price_priority" "cheapest" source conf text] else [])
  ++ (if anyWordPat lowered ["shortest", "fastest", "quickest", "least time"]
      then [build_preference_fact "time_priority" "shortest_duration" source conf text] else [])
  ++ (if anyWordPat lowered ["direct only", "nonstop", "non-stop", "no stops"]
      then [build_preference_fact "stops_priority" "direct_only" source conf text] else [])
  ++ (if anyWordPat lowered ["window seat", "aisle seat", "middle seat"]
      then
        let seat := if containsSub lowered "window".data then "window"
          else if containsSub lowered "aisle".data then "aisle" else "middle"
        [build_preference_fact "seat_preference" seat source conf text]
      else [])

/-- The fact-gathering loops of `extract_preferences_node`: facts from the
model-extracted preference statements carry `source="explicit"`, facts from
the raw recent `HumanMessage`s carry `source="inferred"`. -/
def extract_facts (prefs humanMsgs : List String) : List PrefFact :=
  (prefs.map (fun p => infer_preference_facts_from_text p "explicit")).flatten
    ++ (humanMsgs.map (fun m => infer_preference_facts_from_text m "inferred")).flatten

/-- One step of the `facts_by_key` loop (nodes.py): a Python dict update —
an absent key is appended, an existing key is overwritten in place when the
new fact's confidence is `>=` the stored one's. -/
def updateFactsByKey (m : List (String × PrefFact)) (f : PrefFact) : List (String × PrefFact) :=
  match m with
  | [] => [(f.pref_key, f)]
  | (k, e) :: rest =>
      if k = f.pref_key then
        if f.confidence ≥ e.confidence then (k, f) :: rest else (k, e) :: rest
      else (k, e) :: updateFactsByKey rest f

/-- `facts_by_key` (nodes.py): fold the candidate facts into an
insertion-ordered dict keyed by `pref_key`. -/
def facts_by_key (facts : List PrefFact) : List (String × PrefFact) :=
  facts.foldl updateFactsByKey []

/-- `deduped_facts = list(facts_by_key.values())`. -/
def deduped_facts (facts : List PrefFact) : List PrefFact :=
  (facts_by_key facts).map (·.2)

/-- The kept fact for one key, as the spec describes the winner: among the
candidates for that key, one of maximal confidence — the last seen among
those attaining the maximum. -/
def maxConf : List PrefFact → Option ℚ
  | [] => none
  | f :: rest => some (rest.foldl (fun a g => max a g.confidence) f.confidence)

/-- Spec-side description of the dedup winner for a candidate list (all of
one key): the last candidate of maximal confidence. -/
def keptSpec (l : List PrefFact) : Option PrefFact :=
  match maxConf l with
  | none => none
  | some m => (l.filter (fun f => f.confidence = m)).getLast?

/-- The per-key scalar view of the dict fold: fold the candidates for one
key over an optional current winner. -/
def pickFold (o : Option PrefFact) (l : List PrefFact) : Option PrefFact :=
  l.foldl (fun acc f =>
    match acc with
    | none => some f
    | some a => if a.confidence ≤ f.confidence then some f else some a) o

/-- The textual-preference normalization of `extract_preferences_node`:
`[p.strip() for p in result.preferences if isinstance(p, str) and p.strip()]`. -/
def norm_prefs (raw : List String) : List String :=
  (raw.map pyStripS).filter (fun s => s ≠ "")

/-- `sorted(set(l))` for strings. -/
def sortedSet (l : List String) : List String :=
  l.dedup.mergeSort (· ≤ ·)

/-- The read-modify-write merge of textual preferences
(`extract_preferences_node`): filter the stored list to non-blank strings,
union with the new preferences, deduplicate and sort. -/
def merge_prefs (stored prefs : List String) : List String :=
  let existing_prefs := stored.filter (fun s => pyStripS s ≠ "")
  sortedSet (existing_prefs ++ prefs)

/-- A row of `user_preference_facts` (db.py); the table's primary key is
`(user_id, pref_key)`. -/
structure FactRow where
  user_id : String
  pref_key : String
  pref_value : String
  source : String
  confidence : ℚ
  evidence : String
deriving DecidableEq, Repr

/-- A row's primary key. -/
def rowKey (r : FactRow) : String × String := (r.user_id, r.pref_key)

/-- One `INSERT ... ON CONFLICT(user_id, pref_key) DO UPDATE` statement of
`_upsert_preference_facts` (nodes.py): update the conflicting row in place,
or append a fresh row. -/
def upsertFact (table : List FactRow) (user_id : String) (f : PrefFact) : List FactRow :=
  if table.any (fun r => r.user_id = user_id ∧ r.pref_key = f.pref_key) then
    table.map (fun r =>
      if r.user_id = user_id ∧ r.pref_key = f.pref_key then
        { r with pref_value := f.pref_value, source := f.source,
                 confidence := f.confidence, evidence := f.evidence }
      else r)
  else
    table ++ [{ user_id := user_id, pref_key := f.pref_key, pref_value := f.pref_value,
                source := f.source, confidence := f.confidence, evidence := f.evidence }]

/-- `_upsert_preference_facts` (nodes.py): upsert each fact in turn. -/
def upsert_preference_facts (table : List FactRow) (user_id : String) (facts : List PrefFact) :
    List FactRow :=
  facts.foldl (fun t f => upsertFact t user_id f) table

/-- The primary-key invariant of `user_preference_facts`: at most one row
per `(user_id, pref_key)`. -/
def uniqueKeys (table : List FactRow) : Prop :=
  (table.map rowKey).Nodup

/-! ## Concrete witness environments

Closed, fully concrete instantiations of the oracle environments, used to
exhibit runs of the embedded code on specific inputs. -/

/-- A two-call batch: an unknown tool name followed by a registered tool. -/
def c5wCalls : List ToolCall := [⟨"1", "nope", ""⟩, ⟨"2", "search_flights", ""⟩]

/-- A tool oracle whose `search_flights` raises and whose other tools
return a plain success dict. -/
def c5wExec : ToolCall → ExecOutcome := fun c =>
  if c.name = "search_flights" then (ExecResult.exn "boom", [])
  else (ExecResult.ret ⟨false, "", none, "ok"⟩, [])

/-- A concrete Docs environment (no Places API key configured). -/
def denvW : DocsEnv :=
  { placesApiKey := none, docId := "d1", centerFound := false,
    sectionLines := fun _ => [], weatherLines := [],
    flightOptionLines := fun _ => [], rankingLines := fun _ _ => [],
    cleanCity := fun s => s }

/-- A concrete Calendar environment. -/
def cenvW : CalEnv := { eventHtmlLink := "link", eventId := "ev1" }

/-- A concrete oracle for the non-Google tools. -/
def otherW : ToolCall → ExecResult := fun _ => ExecResult.ret ⟨false, "", none, "ok"⟩

/-- A concrete argument decoder for `create_trip_document`. -/
def dArgsW : String → TripDocArgs := fun _ => ⟨"Paris", "Berlin", "2025-06-01", 1, "[]", "", ""⟩

/-- A concrete argument decoder for `create_calendar_event`. -/
def cArgsW : String → CalendarArgs := fun _ => ⟨"Paris", "Berlin", "2025-06-01", "", "", ""⟩

/-- A batch invoking both capability-token tools. -/
def c4wCalls : List ToolCall :=
  [⟨"1", "create_trip_document", ""⟩, ⟨"2", "create_calendar_event", ""⟩]

/-- A turn environment whose model always requests one `search_flights`
call and whose tools always fail. -/
def envFailW : TurnEnv :=
  { llm := fun _ => ("", [⟨"1", "search_flights", ""⟩]),
    exec := fun _ => (ExecResult.ret ⟨true, "bad", none, "c"⟩, []),
    systemPrompt := "", contextBlock := "" }

/-- A turn environment whose model always requests one `search_flights`
call and whose tools always succeed — the turn never reaches `extract`. -/
def envLoopW : TurnEnv :=
  { llm := fun _ => ("", [⟨"1", "search_flights", ""⟩]),
    exec := fun _ => (ExecResult.ret ⟨false, "", none, "ok"⟩, []),
    systemPrompt := "", contextBlock := "" }

/-- The initial state of the witness turn. -/
def stW : AgentState := initial_state "s" "u" "hi" none

/-- The state in which the witness turn enters the Correcting node: the
failed dispatch has been recorded and no retry has happened yet. -/
def sCorrW : AgentState :=
  { messages := [Message.user "hi", Message.ai "" [⟨"1", "search_flights", ""⟩],
                 Message.tool "c" "1"],
    trip_info := "", plan_steps := [],
    tool_results := [{ tool := "search_flights", hasError := true, errorText := "bad",
                       hint := none }],
    retry_count := 0, google_token := none, session_id := "s", user_id := "u",
    user_confirmed_creation := false }

/-! ## Dispatcher lemmas and theorems -/

theorem dispatchOne_tool_call_id (exec : ToolCall → ExecOutcome) (c : ToolCall) :
    ((dispatchOne exec c).2.1).tool_call_id = c.id := by
  unfold dispatchOne
  by_cases h : c.name ∈ allToolNames
  · simp only [if_pos h]
    rcases hec : exec c with ⟨er, effs⟩
    cases er <;> simp
  · simp [if_neg h]

theorem dispatchCalls_cons (exec : ToolCall → ExecOutcome) (c : ToolCall) (rest : List ToolCall) :
    dispatchCalls exec (c :: rest) =
      ((dispatchOne exec c).1 :: (dispatchCalls exec rest).1,
       (dispatchOne exec c).2.1 :: (dispatchCalls exec rest).2.1,
       (dispatchOne exec c).2.2.1 ++ (dispatchCalls exec rest).2.2.1,
       (dispatchOne exec c).2.2.2 ++ (dispatchCalls exec rest).2.2.2) := by
  rcases h1 : dispatchOne exec c with ⟨e, m, t, g⟩
  rcases h2 : dispatchCalls exec rest with ⟨es, ms, ts, gs⟩
  simp [dispatchCalls, h1, h2]

theorem dispatchCalls_ids (exec : ToolCall → ExecOutcome) (calls : List ToolCall) :
    ((dispatchCalls exec calls).2.1).map ToolMsg.tool_call_id = calls.map ToolCall.id := by
  induction calls with
  | nil => rfl
  | cons c rest ih =>
      rw [dispatchCalls_cons]
      simp [ih, dispatchOne_tool_call_id]

theorem dispatchCalls_results_length (exec : ToolCall → ExecOutcome) (calls : List ToolCall) :
    (dispatchCalls exec calls).1.length = calls.length := by
  induction calls with
  | nil => rfl
  | cons c rest ih => rw [dispatchCalls_cons]; simp [ih]

/-- **C2.** For every dispatch batch, `tool_node` appends exactly one
`ToolMessage` per `ToolCall` of the triggering `AIMessage` — the appended
messages' `tool_call_id`s are exactly the calls' ids, in issue order — and
builds exactly one result entry per call. -/
theorem c2_dispatch_one_to_one (exec : ToolCall → ExecOutcome) (content : String)
    (calls : List ToolCall) :
    ((tool_node exec (Message.ai content calls)).2.1).map ToolMsg.tool_call_id
        = calls.map ToolCall.id
      ∧ ((tool_node exec (Message.ai content calls)).2.1).length = calls.length
      ∧ ((tool_node exec (Message.ai content calls)).1).length = calls.length := by
  unfold tool_node
  by_cases h : calls.isEmpty
  · rcases calls with _ | ⟨c, rest⟩
    · simp
    · simp [List.isEmpty] at h
  · simp only [if_neg h]
    refine ⟨dispatchCalls_ids exec calls, ?_, dispatchCalls_results_length exec calls⟩
    have := dispatchCalls_ids exec calls
    have hlen := congrArg List.length this
    simpa using hlen

theorem dispatchOne_unknown (exec : ToolCall → ExecOutcome) (c : ToolCall)
    (h : c.name ∉ allToolNames) :
    (dispatchOne exec c).1 = errEntry c.name ("Unknown tool: " ++ c.name)
      ∧ (dispatchOne exec c).2.2.1 = [] := by
  unfold dispatchOne
  simp [if_neg h]

theorem dispatchOne_exn (exec : ToolCall → ExecOutcome) (c : ToolCall) (m : String)
    (hk : c.name ∈ allToolNames) (he : (exec c).1 = ExecResult.exn m) :
    (dispatchOne exec c).1 = errEntry c.name ("Tool execution failed: " ++ m) := by
  unfold dispatchOne
  rcases hec : exec c with ⟨er, effs⟩
  rw [hec] at he
  simp only at he
  subst he
  simp [if_pos hk]

theorem dispatchCalls_trace (exec : ToolCall → ExecOutcome) (calls : List ToolCall) :
    (dispatchCalls exec calls).2.2.1 = calls.filter (fun c => c.name ∈ allToolNames) := by
  induction calls with
  | nil => rfl
  | cons c rest ih =>
      rw [dispatchCalls_cons]
      by_cases h : c.name ∈ allToolNames
      · have : (dispatchOne exec c).2.2.1 = [c] := by
          unfold dispatchOne
          rcases hec : exec c with ⟨er, effs⟩
          cases er <;> simp [if_pos h]
        simp [this, ih, List.filter_cons, h]
      · simp [(dispatchOne_unknown exec c h).2, ih, List.filter_cons, h]

theorem dispatchCalls_entry (exec : ToolCall → ExecOutcome) (calls : List ToolCall)
    (i : Nat) (c : ToolCall) (hget : calls[i]? = some c) :
    (dispatchCalls exec calls).1[i]? = some (dispatchOne exec c).1 := by
  induction calls generalizing i with
  | nil => simp at hget
  | cons c0 rest ih =>
      rw [dispatchCalls_cons]
      rcases i with _ | i
      · simp at hget
        subst hget
        simp
      · simp only [List.getElem?_cons_succ] at hget ⊢
        exact ih i hget

/-- **C5.** Dispatch is all-complete and exception-safe: a result entry is
produced for every call of the batch regardless of failures; an unknown tool
name yields the `Unknown tool` failure entry and that call is never
executed; a raised exception is converted into the `Tool execution failed`
failure entry (with `str(e)` in the text) while the remaining sibling calls
are still processed — the dispatcher itself is a total function, so no
exception crosses its boundary. -/
theorem c5_all_complete_error_conversion (exec : ToolCall → ExecOutcome)
    (calls : List ToolCall) :
    (dispatchCalls exec calls).1.length = calls.length
      ∧ (∀ (i : Nat) (c : ToolCall), calls[i]? = some c → c.name ∉ allToolNames →
          (dispatchCalls exec calls).1[i]? = some (errEntry c.name ("Unknown tool: " ++ c.name))
            ∧ c ∉ (dispatchCalls exec calls).2.2.1)
      ∧ (∀ (i : Nat) (c : ToolCall) (m : String),
          calls[i]? = some c → c.name ∈ allToolNames → (exec c).1 = ExecResult.exn m →
          (dispatchCalls exec calls).1[i]?
            = some (errEntry c.name ("Tool execution failed: " ++ m))) := by
  refine ⟨dispatchCalls_results_length exec calls, ?_, ?_⟩
  · intro i c hget hunk
    constructor
    · have h := dispatchCalls_entry exec calls i c hget
      rw [(dispatchOne_unknown exec c hunk).1] at h
      exact h
    · rw [dispatchCalls_trace]
      intro hmem
      rcases List.mem_filter.1 hmem with ⟨_, hdec⟩
      exact hunk (by simpa using hdec)
  · intro i c m hget hk he
    have h := dispatchCalls_entry exec calls i c hget
    rw [dispatchOne_exn exec c m hk he] at h
    exact h

/-- Witness for **C5** on a concrete batch: the unknown tool gets the
`Unknown tool` entry and is never executed, and the sibling call is still
processed, its raised exception converted into a failure entry. -/
theorem c5_all_complete_witness :
    ((dispatchCalls c5wExec c5wCalls).1[0]?
        = some (errEntry "nope" ("Unknown tool: " ++ "nope"))
      ∧ (⟨"1", "nope", ""⟩ : ToolCall) ∉ (dispatchCalls c5wExec c5wCalls).2.2.1)
      ∧ (dispatchCalls c5wExec c5wCalls).1[1]?
        = some (errEntry "search_flights" ("Tool execution failed: " ++ "boom")) :=
  ⟨(c5_all_complete_error_conversion c5wExec c5wCalls).2.1 0 ⟨"1", "nope", ""⟩
      (by decide) (by decide),
   (c5_all_complete_error_conversion c5wExec c5wCalls).2.2 1 ⟨"2", "search_flights", ""⟩
      "boom" (by decide) (by decide) (by decide)⟩

theorem dispatchOne_ret (exec : ToolCall → ExecOutcome) (c : ToolCall) (r : ToolRet)
    (hk : c.name ∈ allToolNames) (he : (exec c).1 = ExecResult.ret r) :
    (dispatchOne exec c).1
      = { tool := c.name, hasError := r.hasError, errorText := r.errorText, hint := r.hint } := by
  unfold dispatchOne
  rcases hec : exec c with ⟨er, effs⟩
  rw [hec] at he
  simp only at he
  subst he
  simp [if_pos hk]

theorem dispatchOne_effects (exec : ToolCall → ExecOutcome) (c : ToolCall) :
    (dispatchOne exec c).2.2.2 = if c.name ∈ allToolNames then (exec c).2 else [] := by
  unfold dispatchOne
  by_cases h : c.name ∈ allToolNames
  · rcases hec : exec c with ⟨er, effs⟩
    cases er <;> simp [if_pos h, hec]
  · simp [if_neg h]

theorem execRegistered_no_token_effects (denv : DocsEnv) (cenv : CalEnv)
    (other : ToolCall → ExecResult) (dArgs : String → TripDocArgs)
    (cArgs : String → CalendarArgs) (c : ToolCall) :
    (execRegistered denv cenv other dArgs cArgs none c).2 = [] := by
  unfold execRegistered
  split_ifs <;> simp [create_trip_document, create_calendar_event]

theorem execRegistered_no_token_auth (denv : DocsEnv) (cenv : CalEnv)
    (other : ToolCall → ExecResult) (dArgs : String → TripDocArgs)
    (cArgs : String → CalendarArgs) (c : ToolCall) (hreq : requiresToken c.name = true) :
    (execRegistered denv cenv other dArgs cArgs none c).1 = ExecResult.ret authRequiredRet := by
  unfold requiresToken at hreq
  unfold execRegistered
  rcases (by simpa using hreq : c.name = "create_trip_document" ∨ c.name = "create_calendar_event")
    with h | h <;> simp [h, create_trip_document, create_calendar_event]

/-- **C4.** When no capability token is available, a dispatch batch performs
no Google-service interaction at all (side effect count = 0), and every call
to a token-requiring tool produces the `authorization required` failure
outcome (`"Google authentication required. ..."`), short-circuited inside
the tool before any external service is contacted. -/
theorem c4_no_token_short_circuit (denv : DocsEnv) (cenv : CalEnv)
    (other : ToolCall → ExecResult) (dArgs : String → TripDocArgs)
    (cArgs : String → CalendarArgs) (calls : List ToolCall) :
    (dispatchCalls (execRegistered denv cenv other dArgs cArgs none) calls).2.2.2 = []
      ∧ ∀ (i : Nat) (c : ToolCall), calls[i]? = some c → requiresToken c.name = true →
          (dispatchCalls (execRegistered denv cenv other dArgs cArgs none) calls).1[i]?
            = some { tool := c.name, hasError := true, errorText := authRequiredMsg,
                     hint := none } := by
  constructor
  · induction calls with
    | nil => rfl
    | cons c rest ih =>
        rw [dispatchCalls_cons]
        simp only [dispatchOne_effects, execRegistered_no_token_effects]
        simpa using ih
  · intro i c hget hreq
    have hk : c.name ∈ allToolNames := by
      unfold requiresToken at hreq
      rcases (by simpa using hreq : c.name = "create_trip_document"
          ∨ c.name = "create_calendar_event") with h | h <;> rw [h] <;> decide
    have h := dispatchCalls_entry (execRegistered denv cenv other dArgs cArgs none) calls i c hget
    rw [dispatchOne_ret _ c authRequiredRet hk
      (execRegistered_no_token_auth denv cenv other dArgs cArgs c hreq)] at h
    simpa [authRequiredRet] using h

/-- Witness for **C4** on a concrete batch calling both Google tools with no
token: zero Google effects, and both outcomes are the authorization-required
failure. -/
theorem c4_no_token_witness :
    (dispatchCalls (execRegistered denvW cenvW otherW dArgsW cArgsW none) c4wCalls).2.2.2 = []
      ∧ (dispatchCalls (execRegistered denvW cenvW otherW dArgsW cArgsW none) c4wCalls).1[0]?
        = some { tool := "create_trip_document", hasError := true,
                 errorText := authRequiredMsg, hint := none }
      ∧ (dispatchCalls (execRegistered denvW cenvW otherW dArgsW cArgsW none) c4wCalls).1[1]?
        = some { tool := "create_calendar_event", hasError := true,
                 errorText := authRequiredMsg, hint := none } :=
  ⟨(c4_no_token_short_circuit denvW cenvW otherW dArgsW cArgsW c4wCalls).1,
   (c4_no_token_short_circuit denvW cenvW otherW dArgsW cArgsW c4wCalls).2 0
      ⟨"1", "create_trip_document", ""⟩ (by decide) (by decide),
   (c4_no_token_short_circuit denvW cenvW otherW dArgsW cArgsW c4wCalls).2 1
      ⟨"2", "create_calendar_event", ""⟩ (by decide) (by decide)⟩

/-! ## Turn state machine: the Correcting guard (C1) and the iteration
ceiling (C3) -/

theorem runTurn_correction_inv (env : TurnEnv) :
    ∀ (fuel : Nat) (n : Node) (st s : AgentState),
      (n = Node.correction → should_correct st = true) →
      (Node.correction, s) ∈ (runTurn env fuel n st).2 →
      should_correct s = true := by
  intro fuel
  induction fuel with
  | zero =>
      intro n st s _ hmem
      simp [runTurn] at hmem
  | succ fuel ih =>
      intro n st s hpre hmem
      cases n with
      | agent =>
          rw [runTurn] at hmem
          rcases List.mem_cons.1 hmem with heq | hmem
          · exact absurd (congrArg Prod.fst heq) (by simp)
          · refine ih _ _ s ?_ hmem
            intro hc
            unfold nextAfterAgent at hc
            split at hc <;> simp_all
      | tools =>
          rw [runTurn] at hmem
          rcases List.mem_cons.1 hmem with heq | hmem
          · exact absurd (congrArg Prod.fst heq) (by simp)
          · refine ih _ _ s ?_ hmem
            intro hc
            unfold nextAfterTools at hc
            split at hc
            · assumption
            · simp_all
      | correction =>
          rw [runTurn] at hmem
          rcases List.mem_cons.1 hmem with heq | hmem
          · have h1 := congrArg Prod.snd heq
            simp only at h1
            subst h1
            exact hpre rfl
          · exact ih _ _ s (by simp) hmem
      | extract =>
          rw [runTurn] at hmem
          rcases List.mem_cons.1 hmem with heq | hmem
          · exact absurd (congrArg Prod.fst heq) (by simp)
          · simp at hmem

/-- **C1.** For every turn (any environment, any fuel, any initial state),
whenever the run transitions into the Correcting node, the state it enters
with has at least one failure outcome in its last dispatch results and a
retry counter strictly below `MAX_RETRIES = 2` (in particular it never
exceeds 2); and each Correcting invocation on a state with failure outcomes
increments the retry counter by exactly 1. -/
theorem c1_correcting_guard :
    (∀ (env : TurnEnv) (fuel : Nat) (st0 s : AgentState),
        (Node.correction, s) ∈ (runTurn env fuel Node.agent st0).2 →
          s.tool_results.any (·.hasError) = true
            ∧ s.retry_count < MAX_RETRIES ∧ s.retry_count ≤ MAX_RETRIES)
      ∧ (∀ (env : TurnEnv) (s : AgentState), s.tool_results.any (·.hasError) = true →
          (self_correction_node env s).retry_count = s.retry_count + 1) := by
  constructor
  · intro env fuel st0 s hmem
    have h := runTurn_correction_inv env fuel Node.agent st0 s (by simp) hmem
    have h' : s.tool_results.any (·.hasError) = true ∧ s.retry_count < MAX_RETRIES := by
      simpa [should_correct] using h
    exact ⟨h'.1, h'.2, Nat.le_of_lt h'.2⟩
  · intro env s h
    have hne : (s.tool_results.filter (fun e => e.hasError)).isEmpty = false := by
      rcases List.any_eq_true.1 h with ⟨x, hx, hpx⟩
      have hxf : x ∈ s.tool_results.filter (fun e => e.hasError) :=
        List.mem_filter.2 ⟨hx, hpx⟩
      rcases hf : s.tool_results.filter (fun e => e.hasError) with _ | _
      · rw [hf] at hxf; simp at hxf
      · rw [hf]; rfl
    unfold self_correction_node
    rcases hl : env.llm (Message.system env.systemPrompt :: s.messages
        ++ [Message.user (correction_prompt (s.tool_results.filter (fun e => e.hasError))
              s.retry_count)]) with ⟨cnt, cls⟩
    simp [hne, hl]

/-- Witness for **C1**: a concrete failing turn in which the Correcting node
is entered (at retry counter 0, with a failure outcome recorded), and the
correction step on that state yields retry counter 1. -/
theorem c1_correcting_witness :
    (sCorrW.tool_results.any (·.hasError) = true
        ∧ sCorrW.retry_count < MAX_RETRIES ∧ sCorrW.retry_count ≤ MAX_RETRIES)
      ∧ (self_correction_node envFailW sCorrW).retry_count = sCorrW.retry_count + 1 :=
  ⟨c1_correcting_guard.1 envFailW 4 stW sCorrW (by decide),
   c1_correcting_guard.2 envFailW sCorrW (by decide)⟩

theorem runTurn_trace_length (env : TurnEnv) :
    ∀ (fuel : Nat) (n : Node) (st : AgentState),
      ((runTurn env fuel n st).2).length ≤ fuel := by
  intro fuel
  induction fuel with
  | zero => intro n st; simp [runTurn]
  | succ fuel ih =>
      intro n st
      cases n <;> rw [runTurn] <;> simp only [List.length_cons] <;>
        first
          | exact Nat.succ_le_succ (ih _ _)
          | simp

/-- **C3.** A hard iteration ceiling bounds the turn: the run executes at
most `fuel` node transitions for any fuel (in particular at most
`recursion_limit = 20` per turn, a constant independent of the retry
counter, which the bound holds for regardless of); and the event stream of
every turn is finite and ends with a terminal event — `done`, or, exactly
when the ceiling was exceeded, an `error` event carrying the explanation
instead of looping forever. -/
theorem c3_iteration_ceiling :
    (∀ (env : TurnEnv) (fuel : Nat) (n : Node) (st : AgentState),
        ((runTurn env fuel n st).2).length ≤ fuel)
      ∧ recursion_limit = 20
      ∧ (∀ (env : TurnEnv) (sid uid msg : String) (tok : Option GoogleToken),
          ∃ e, (event_generator env sid uid msg tok).getLast? = some e
            ∧ ((∃ s t, e = StreamEvent.done s t) ∨ ∃ m, e = StreamEvent.error m))
      ∧ (∀ (env : TurnEnv) (sid uid msg : String) (tok : Option GoogleToken),
          (runTurn env recursion_limit Node.agent (initial_state sid uid msg tok)).1 = none →
          ∃ m, (event_generator env sid uid msg tok).getLast? = some (StreamEvent.error m)) := by
  refine ⟨runTurn_trace_length, rfl, ?_, ?_⟩
  · intro env sid uid msg tok
    unfold event_generator
    dsimp only
    rcases hr : runTurn env recursion_limit Node.agent (initial_state sid uid msg tok)
      with ⟨res, tr⟩
    rcases res with _ | stF
    · exact ⟨StreamEvent.error
          "GraphRecursionError: Recursion limit of 20 reached without hitting a stop condition.",
        by simp, Or.inr ⟨_, rfl⟩⟩
    · exact ⟨StreamEvent.done sid (final_text stF), by simp,
        Or.inl ⟨sid, final_text stF, rfl⟩⟩
  · intro env sid uid msg tok hnone
    unfold event_generator
    dsimp only
    rcases hr : runTurn env recursion_limit Node.agent (initial_state sid uid msg tok)
      with ⟨res, tr⟩
    rw [hr] at hnone
    simp only at hnone
    subst hnone
    exact ⟨"GraphRecursionError: Recursion limit of 20 reached without hitting a stop condition.",
      by simp⟩

/-- Witness for **C3**: a concrete turn whose model keeps requesting the
same tool forever; the run hits the ceiling (`none`) and the stream ends
with the error event. -/
theorem c3_ceiling_witness :
    ∃ m, (event_generator envLoopW "s" "u" "hi" none).getLast? = some (StreamEvent.error m) :=
  c3_iteration_ceiling.2.2.2 envLoopW "s" "u" "hi" none (by decide)

/-! ## Knowledge extraction: pattern rules (C8), evidence bound (C9),
per-key dedup (C6) -/

theorem infer_mem_build (text src : String) (f : PrefFact)
    (h : f ∈ infer_preference_facts_from_text text src) :
    ∃ k v, f = build_preference_fact k v src
      (if src = "explicit" then mkRat 85 100 else mkRat 75 100) text := by
  unfold infer_preference_facts_from_text at h
  dsimp only at h
  generalize hc : (if src = "explicit" then mkRat 85 100 else mkRat 75 100) = c at h
  simp only [List.mem_append] at h
  rcases h with ((h | h) | h) | h <;> split_ifs at h <;>
    simp only [List.mem_singleton, List.not_mem_nil] at h <;>
    (subst h; exact ⟨_, _, rfl⟩)

/-- **C8.** Given the explicit statements `"I only fly Delta"` and
`"I want the shortest nonstop flight"`, the pattern rules yield exactly the
facts `time_priority=shortest_duration` and `stops_priority=direct_only`,
both with `source="explicit"` and confidence `0.85 ≥ 0.8`; and in general
every fact built from an explicit statement carries confidence `0.85`,
strictly above the `0.75` of every fact inferred from a raw message. -/
theorem c8_explicit_patterns :
    (extract_facts ["I only fly Delta", "I want the shortest nonstop flight"] []
        = [build_preference_fact "time_priority" "shortest_duration" "explicit" (mkRat 85 100)
             "I want the shortest nonstop flight",
           build_preference_fact "stops_priority" "direct_only" "explicit" (mkRat 85 100)
             "I want the shortest nonstop flight"])
      ∧ (mkRat 85 100 = (0.85 : ℚ) ∧ mkRat 75 100 = (0.75 : ℚ)
          ∧ mkRat 85 100 ≥ (8 : ℚ) / 10 ∧ mkRat 85 100 > mkRat 75 100)
      ∧ (∀ (text : String) (f : PrefFact),
          f ∈ infer_preference_facts_from_text text "explicit" → f.confidence = mkRat 85 100)
      ∧ (∀ (text : String) (f : PrefFact),
          f ∈ infer_preference_facts_from_text text "inferred" → f.confidence = mkRat 75 100) := by
  refine ⟨by decide, ⟨by norm_num [Rat.mkRat_eq_div], by norm_num [Rat.mkRat_eq_div],
    by norm_num [Rat.mkRat_eq_div], by decide⟩, ?_, ?_⟩
  · intro text f h
    rcases infer_mem_build text "explicit" f h with ⟨k, v, rfl⟩
    simp [build_preference_fact]
  · intro text f h
    rcases infer_mem_build text "inferred" f h with ⟨k, v, rfl⟩
    simp [build_preference_fact]

/-- Witness for **C8**'s universally quantified confidence-tagging parts, at
the concrete scenario statement: the explicit fact carries confidence 0.85
and the same sentence inferred from a raw message carries 0.75. -/
theorem c8_explicit_witness :
    (build_preference_fact "time_priority" "shortest_duration" "explicit"
        (if "explicit" = "explicit" then mkRat 85 100 else mkRat 75 100)
        "I want the shortest nonstop flight").confidence = mkRat 85 100
      ∧ (build_preference_fact "time_priority" "shortest_duration" "inferred"
        (if "inferred" = "explicit" then mkRat 85 100 else mkRat 75 100)
        "I want the shortest nonstop flight").confidence = mkRat 75 100 :=
  ⟨c8_explicit_patterns.2.2.1 "I want the shortest nonstop flight" _ (by decide),
   c8_explicit_patterns.2.2.2 "I want the shortest nonstop flight" _ (by decide)⟩

/-- **C9.** Every preference fact carries an evidence snippet of at most 240
characters: `_build_preference_fact` truncates with `evidence[:240]`, and
every fact produced by the extractor's fact-gathering paths goes through
it. -/
theorem c9_evidence_bound :
    (∀ (k v s : String) (c : ℚ) (e : String),
        (build_preference_fact k v s c e).evidence.length ≤ 240)
      ∧ (∀ (prefs msgs : List String) (f : PrefFact), f ∈ extract_facts prefs msgs →
          f.evidence.length ≤ 240) := by
  have hbuild : ∀ (k v s : String) (c : ℚ) (e : String),
      (build_preference_fact k v s c e).evidence.length ≤ 240 := by
    intro k v s c e
    show (String.mk (e.data.take 240)).length ≤ 240
    have : (String.mk (e.data.take 240)).length = (e.data.take 240).length := rfl
    rw [this, List.length_take]
    exact min_le_left _ _
  refine ⟨hbuild, ?_⟩
  intro prefs msgs f h
  unfold extract_facts at h
  rcases List.mem_append.1 h with h | h <;>
    · rcases List.mem_flatten.1 h with ⟨l, hl, hfl⟩
      rcases List.mem_map.1 hl with ⟨t, _, rfl⟩
      rcases infer_mem_build t _ f hfl with ⟨k, v, rfl⟩
      exact hbuild _ _ _ _ _

/-- Witness for **C9** on a concrete over-long input: a fact built from a
300-character evidence string stays within the 240-character bound. -/
theorem c9_evidence_witness :
    (build_preference_fact "price_priority" "cheapest" "explicit" (mkRat 85 100)
        (String.mk (List.replicate 300 'x'))).evidence.length ≤ 240
      ∧ (build_preference_fact "time_priority" "shortest_duration" "explicit"
          (if "explicit" = "explicit" then mkRat 85 100 else mkRat 75 100)
          "I want the shortest nonstop flight").evidence.length ≤ 240 :=
  ⟨c9_evidence_bound.1 "price_priority" "cheapest" "explicit" (mkRat 85 100) _,
   c9_evidence_bound.2 ["I want the shortest nonstop flight"] [] _ (by decide)⟩

/-- **C6 counterexample.** Two same-key candidates with equal confidence
(0.85 each): the dict fold keeps the *second* (aisle), not the first-seen
(window) — refuting the claim that ties keep the first seen. -/
theorem c6_tie_counterexample :
    extract_facts ["I want a window seat", "I want an aisle seat"] []
        = [build_preference_fact "seat_preference" "window" "explicit" (mkRat 85 100)
             "I want a window seat",
           build_preference_fact "seat_preference" "aisle" "explicit" (mkRat 85 100)
             "I want an aisle seat"]
      ∧ (List.lookup "seat_preference" (facts_by_key
            (extract_facts ["I want a window seat", "I want an aisle seat"] []))).map
          (fun f => f.pref_value) = some "aisle"
      ∧ "aisle" ≠ "window" := by
  refine ⟨by decide, by decide, by decide⟩

theorem lookup_updateFactsByKey (m : List (String × PrefFact)) (f : PrefFact) (key : String) :
    List.lookup key (updateFactsByKey m f)
      = if f.pref_key = key then
          (match List.lookup key m with
           | none => some f
           | some e => if e.confidence ≤ f.confidence then some f else some e)
        else List.lookup key m := by
  induction m with
  | nil =>
      by_cases hk : f.pref_key = key
      · have hb : (key == f.pref_key) = true := by simp [hk.symm]
        simp [updateFactsByKey, List.lookup, hk, hb]
      · have hb : (key == f.pref_key) = false := by
          simp only [beq_eq_false_iff_ne, ne_eq]
          exact fun hh => hk hh.symm
        simp [updateFactsByKey, List.lookup, hk, hb]
  | cons p rest ih =>
      rcases p with ⟨k0, e0⟩
      by_cases hk0 : k0 = f.pref_key
      · by_cases hkey : key = k0
        · have hfk : f.pref_key = key := by rw [← hk0, hkey]
          have hb : (key == k0) = true := by simp [hkey]
          by_cases hge : f.confidence ≥ e0.confidence
          · simp [updateFactsByKey, hk0, hge, List.lookup, hb, hfk, ge_iff_le.1 hge]
          · simp only [updateFactsByKey, if_pos hk0, if_neg hge]
            simp only [List.lookup, hb, if_pos hfk]
            have : ¬ e0.confidence ≤ f.confidence := hge
            simp [this]
        · have hfk : ¬ f.pref_key = key := by
            rw [← hk0]
            exact fun hh => hkey hh.symm
          have hb : (key == k0) = false := by
            simp only [beq_eq_false_iff_ne, ne_eq]
            exact hkey
          have hb2 : (key == f.pref_key) = false := by rw [← hk0]; exact hb
          by_cases hge : f.confidence ≥ e0.confidence
          · simp [updateFactsByKey, hk0, hge, List.lookup, hb, hb2, hfk]
          · simp [updateFactsByKey, hk0, hge, List.lookup, hb, hb2, hfk]
      · by_cases hkey : key = k0
        · have hfk : ¬ f.pref_key = key := by
            intro hh
            exact hk0 (hh.trans hkey).symm
          have hb : (key == k0) = true := by simp [hkey]
          simp [updateFactsByKey, hk0, List.lookup, hb, hfk]
        · have hb : (key == k0) = false := by
            simp only [beq_eq_false_iff_ne, ne_eq]
            exact hkey
          simp [updateFactsByKey, hk0, List.lookup, hb, ih]

theorem lookup_foldl_factsByKey (facts : List PrefFact) :
    ∀ (m : List (String × PrefFact)) (key : String),
      List.lookup key (facts.foldl updateFactsByKey m)
        = pickFold (List.lookup key m) (facts.filter (fun f => f.pref_key = key)) := by
  induction facts with
  | nil => intro m key; rfl
  | cons f fs ih =>
      intro m key
      rw [List.foldl_cons, ih (updateFactsByKey m f) key,
        lookup_updateFactsByKey m f key]
      have hstep : ∀ (o : Option PrefFact),
          pickFold o (f :: fs.filter (fun g => g.pref_key = key))
            = pickFold (match o with
                | none => some f
                | some e => if e.confidence ≤ f.confidence then some f else some e)
              (fs.filter (fun g => g.pref_key = key)) := by
        intro o
        rcases o with _ | e
        · rfl
        · rfl
      by_cases hk : f.pref_key = key
      · have hfilter : (f :: fs).filter (fun g => g.pref_key = key)
            = f :: fs.filter (fun g => g.pref_key = key) := by
          simp [List.filter_cons, hk]
        rw [hfilter, hstep (List.lookup key m), if_pos hk]
      · have hfilter : (f :: fs).filter (fun g => g.pref_key = key)
            = fs.filter (fun g => g.pref_key = key) := by
          simp [List.filter_cons, hk]
        rw [hfilter, if_neg hk]

theorem maxConf_concat (l : List PrefFact) (f : PrefFact) :
    maxConf (l ++ [f]) = some (match maxConf l with
      | none => f.confidence
      | some m => max m f.confidence) := by
  rcases l with _ | ⟨x, xs⟩
  · rfl
  · simp [maxConf, List.foldl_append]

theorem pickFold_concat (o : Option PrefFact) (l : List PrefFact) (f : PrefFact) :
    pickFold o (l ++ [f]) = match pickFold o l with
      | none => some f
      | some a => if a.confidence ≤ f.confidence then some f else some a := by
  unfold pickFold
  rw [List.foldl_append]
  rfl

theorem pickFold_keptSpec (l : List PrefFact) :
    pickFold none l = keptSpec l
      ∧ (∀ m, maxConf l = some m → ∃ a, pickFold none l = some a ∧ a.confidence = m) := by
  induction l using List.reverseRecOn with
  | nil => exact ⟨rfl, fun m hm => by simp [maxConf] at hm⟩
  | append_singleton l f ih =>
      rcases l with _ | ⟨x, xs⟩
      · refine ⟨?_, ?_⟩
        · show pickFold none [f] = keptSpec [f]
          simp [pickFold, keptSpec, maxConf, List.filter]
        · intro m hm
          simp [maxConf] at hm
          exact ⟨f, rfl, hm⟩
      · have hmax : ∃ m0, maxConf (x :: xs) = some m0 := ⟨_, rfl⟩
        rcases hmax with ⟨m0, hm0⟩
        rcases ih.2 m0 hm0 with ⟨a, ha, hac⟩
        have hkept : keptSpec (x :: xs) = ((x :: xs).filter
            (fun g => g.confidence = m0)).getLast? := by
          unfold keptSpec
          rw [hm0]
        by_cases hle : a.confidence ≤ f.confidence
        · have hmle : m0 ≤ f.confidence := hac ▸ hle
          refine ⟨?_, ?_⟩
          · rw [pickFold_concat, ha]
            simp only [if_pos hle]
            unfold keptSpec
            rw [maxConf_concat, hm0]
            simp only
            simp only [max_eq_right hmle]
            rw [List.filter_append]
            have : List.filter (fun g => decide (g.confidence = f.confidence)) [f] = [f] := by
              simp
            rw [this, List.getLast?_concat]
          · intro m hm
            rw [maxConf_concat, hm0] at hm
            simp only [Option.some.injEq] at hm
            refine ⟨f, ?_, ?_⟩
            · rw [pickFold_concat, ha]; simp [hle]
            · rw [← hm, max_eq_right hmle]
        · have hlt : f.confidence < m0 := by
            rw [← hac]
            exact lt_of_not_le hle
          refine ⟨?_, ?_⟩
          · rw [pickFold_concat, ha]
            simp only [if_neg hle]
            unfold keptSpec
            rw [maxConf_concat, hm0]
            simp only
            simp only [max_eq_left (le_of_lt hlt)]
            rw [List.filter_append]
            have : List.filter (fun g => decide (g.confidence = m0)) [f] = [] := by
              simp [ne_of_lt hlt]
            rw [this, List.append_nil, ← hkept, ← ih.1, ha]
          · intro m hm
            rw [maxConf_concat, hm0] at hm
            simp only [Option.some.injEq] at hm
            refine ⟨a, ?_, ?_⟩
            · rw [pickFold_concat, ha]; simp [hle]
            · rw [← hm, max_eq_left (le_of_lt hlt), hac]

/-- **C6 (amended).** In the KnowledgeExtractor's per-key dedup, the
highest-confidence fact wins; on a confidence tie the *last-seen* fact is
kept (the dict update fires on `>=`): for every key, the surviving fact is
exactly the last candidate of maximal confidence among that key's
candidates. -/
theorem c6_highest_wins_last_tie (facts : List PrefFact) (key : String) :
    List.lookup key (facts_by_key facts)
      = keptSpec (facts.filter (fun f => f.pref_key = key)) := by
  have h := lookup_foldl_factsByKey facts [] key
  unfold facts_by_key
  rw [h]
  exact (pickFold_keptSpec _).1

/-! ## C7: idempotent textual merge and keyed upsert -/

theorem head_dropWhile_false (p : Char → Bool) :
    ∀ (l : List Char) (c : Char), (l.dropWhile p).head? = some c → p c = false := by
  intro l
  induction l with
  | nil => intro c h; simp at h
  | cons x xs ih =>
      intro c h
      by_cases hx : p x
      · rw [List.dropWhile_cons_of_pos hx] at h
        exact ih c h
      · rw [List.dropWhile_cons_of_neg hx] at h
        simp only [List.head?_cons, Option.some.injEq] at h
        subst h
        simpa using hx

theorem getLast_dropWhile_eq (p : Char → Bool) :
    ∀ (l : List Char), l.dropWhile p ≠ [] → (l.dropWhile p).getLast? = l.getLast? := by
  intro l
  induction l with
  | nil => intro h; simp at h
  | cons x xs ih =>
      intro h
      by_cases hx : p x
      · rw [List.dropWhile_cons_of_pos hx] at h ⊢
        rcases hxs : xs with _ | ⟨y, ys⟩
        · rw [hxs] at h; simp at h
        · rw [← hxs, ih h, hxs, List.getLast?_cons_cons]
      · rw [List.dropWhile_cons_of_neg hx]

theorem pyStrip_eq_self (l : List Char)
    (h1 : ∀ c, l.head? = some c → isWs c = false)
    (h2 : ∀ c, l.getLast? = some c → isWs c = false) : pyStrip l = l := by
  unfold pyStrip
  have hd : l.dropWhile isWs = l := by
    cases l with
    | nil => rfl
    | cons x xs => rw [List.dropWhile_cons_of_neg (by simp [h1 x rfl])]
  rw [hd]
  have hr : l.reverse.dropWhile isWs = l.reverse := by
    rcases hrev : l.reverse with _ | ⟨y, ys⟩
    · rfl
    · have hyl : l.getLast? = some y := by
        rw [← List.head?_reverse, hrev]
        rfl
      rw [List.dropWhile_cons_of_neg (by simp [h2 y hyl])]
  rw [hr, List.reverse_reverse]

theorem pyStrip_idem (l : List Char) : pyStrip (pyStrip l) = pyStrip l := by
  rcases hz : pyStrip l with _ | ⟨w, ws⟩
  · rfl
  · rw [← hz]
    apply pyStrip_eq_self
    · intro c hc
      unfold pyStrip at hc
      rw [List.head?_reverse] at hc
      have hne : (l.dropWhile isWs).reverse.dropWhile isWs ≠ [] := by
        intro hnil
        rw [hnil] at hc
        simp at hc
      rw [getLast_dropWhile_eq isWs _ hne, List.getLast?_reverse] at hc
      exact head_dropWhile_false isWs _ c hc
    · intro c hc
      unfold pyStrip at hc
      rw [List.getLast?_reverse] at hc
      exact head_dropWhile_false isWs _ c hc

theorem pyStripS_idem (s : String) : pyStripS (pyStripS s) = pyStripS s := by
  show String.mk (pyStrip (pyStrip s.data)) = String.mk (pyStrip s.data)
  rw [pyStrip_idem]

theorem mem_sortedSet {x : String} {l : List String} : x ∈ sortedSet l ↔ x ∈ l := by
  unfold sortedSet
  rw [List.mem_mergeSort, List.mem_dedup]

theorem sortedSet_nodup (l : List String) : (sortedSet l).Nodup :=
  ((List.mergeSort_perm l.dedup _).symm).nodup (List.nodup_dedup l)

theorem sortedSet_sorted (l : List String) : List.Sorted (· ≤ ·) (sortedSet l) := by
  have h := @List.sorted_mergeSort String (fun a b : String => decide (a ≤ b))
    (fun a b c hab hbc =>
      decide_eq_true (le_trans (of_decide_eq_true hab) (of_decide_eq_true hbc)))
    (fun a b => by
      rcases le_total a b with h | h
      · simp [h]
      · simp [h])
    l.dedup
  exact h.imp (fun hab => of_decide_eq_true hab)

theorem sortedSet_ext (l l' : List String) (h : ∀ x, x ∈ l ↔ x ∈ l') :
    sortedSet l = sortedSet l' := by
  refine List.eq_of_perm_of_sorted ?_ (sortedSet_sorted l) (sortedSet_sorted l')
  refine (List.perm_ext_iff_of_nodup (sortedSet_nodup l) (sortedSet_nodup l')).2 ?_
  intro a
  rw [mem_sortedSet, mem_sortedSet]
  exact h a

theorem norm_prefs_strip (raw : List String) :
    ∀ x ∈ norm_prefs raw, pyStripS x ≠ "" := by
  intro x hx
  unfold norm_prefs at hx
  rcases List.mem_filter.1 hx with ⟨hmem, hne⟩
  rcases List.mem_map.1 hmem with ⟨y, _, rfl⟩
  rw [pyStripS_idem]
  simpa using hne

theorem upsertFact_unique (t : List FactRow) (u : String) (f : PrefFact)
    (h : uniqueKeys t) : uniqueKeys (upsertFact t u f) := by
  unfold upsertFact
  by_cases hany : t.any (fun r => r.user_id = u ∧ r.pref_key = f.pref_key)
  · rw [if_pos hany]
    unfold uniqueKeys at h ⊢
    have hmap : (t.map (fun r =>
        if r.user_id = u ∧ r.pref_key = f.pref_key then
          { r with pref_value := f.pref_value, source := f.source,
                   confidence := f.confidence, evidence := f.evidence }
        else r)).map rowKey = t.map rowKey := by
      rw [List.map_map]
      apply List.map_congr_left
      intro r _
      by_cases hc : r.user_id = u ∧ r.pref_key = f.pref_key
      · simp [hc, rowKey]
      · simp [hc]
    rw [hmap]
    exact h
  · rw [if_neg hany]
    unfold uniqueKeys at h ⊢
    rw [List.map_append]
    refine List.Nodup.append h (List.nodup_singleton _) ?_
    intro a ha hb
    simp only [List.map_cons, List.map_nil, List.mem_singleton] at hb
    subst hb
    rcases List.mem_map.1 ha with ⟨r, hr, hkey⟩
    apply hany
    rw [List.any_eq_true]
    refine ⟨r, hr, ?_⟩
    have h1 : r.user_id = u := congrArg Prod.fst hkey
    have h2 : r.pref_key = f.pref_key := congrArg Prod.snd hkey
    simp [h1, h2]

theorem upsert_preference_facts_unique :
    ∀ (facts : List PrefFact) (t : List FactRow) (u : String),
      uniqueKeys t → uniqueKeys (upsert_preference_facts t u facts) := by
  intro facts
  induction facts with
  | nil => intro t u h; exact h
  | cons f fs ih =>
      intro t u h
      exact ih (upsertFact t u f) u (upsertFact_unique t u f h)

/-- **C7.** The KnowledgeExtractor's write step is idempotent on the textual
preference set: running the read-filter-union-sort merge a second time with
the same normalized preferences leaves the stored set unchanged; and the
structured-fact upsert preserves the primary-key invariant — at most one
fact row per `(user_id, pref_key)` pair. -/
theorem c7_idempotent_merge_and_unique_upsert :
    (∀ (stored raw : List String),
        merge_prefs (merge_prefs stored (norm_prefs raw)) (norm_prefs raw)
          = merge_prefs stored (norm_prefs raw))
      ∧ (∀ (table : List FactRow) (u : String) (facts : List PrefFact),
          uniqueKeys table → uniqueKeys (upsert_preference_facts table u facts)) := by
  constructor
  · intro stored raw
    unfold merge_prefs
    have hmem : ∀ x ∈ sortedSet (stored.filter (fun s => pyStripS s ≠ "") ++ norm_prefs raw),
        pyStripS x ≠ "" := by
      intro x hx
      rw [mem_sortedSet] at hx
      rcases List.mem_append.1 hx with hx | hx
      · simpa using (List.mem_filter.1 hx).2
      · exact norm_prefs_strip raw x hx
    have hfilter : (sortedSet (stored.filter (fun s => pyStripS s ≠ "") ++ norm_prefs raw)).filter
        (fun s => pyStripS s ≠ "")
          = sortedSet (stored.filter (fun s => pyStripS s ≠ "") ++ norm_prefs raw) :=
      List.filter_eq_self.2 (fun a ha => decide_eq_true (hmem a ha))
    rw [hfilter]
    apply sortedSet_ext
    intro x
    constructor
    · intro hx
      rcases List.mem_append.1 hx with hx | hx
      · rwa [mem_sortedSet] at hx
      · exact List.mem_append.2 (Or.inr hx)
    · intro hx
      exact List.mem_append.2 (Or.inl ((mem_sortedSet (l := _)).2 hx))
  · intro table u facts h
    exact upsert_preference_facts_unique facts table u h

/-- Witness for **C7**'s keyed-upsert invariant: starting from the empty
table (fresh `init_db` schema), upserting two same-key facts leaves at most
one row per `(user_id, pref_key)`. -/
theorem c7_upsert_witness :
    uniqueKeys ([] : List FactRow)
      ∧ uniqueKeys (upsert_preference_facts [] "u"
          [build_preference_fact "seat_preference" "window" "explicit" (mkRat 85 100) "w",
           build_preference_fact "seat_preference" "aisle" "explicit" (mkRat 85 100) "a"]) :=
  ⟨by simp [uniqueKeys], c7_idempotent_merge_and_unique_upsert.2 [] "u"
      [build_preference_fact "seat_preference" "window" "explicit" (mkRat 85 100) "w",
       build_preference_fact "seat_preference" "aisle" "explicit" (mkRat 85 100) "a"]
      (by simp [uniqueKeys])⟩

/-! ## C10: the duration formatter/parser round-trip -/

theorem digitChar_isDig {k : Nat} (h : k < 10) : isDig (digitChar k) = true := by
  interval_cases k <;> decide

theorem digitChar_val {k : Nat} (h : k < 10) : (digitChar k).toNat - 48 = k := by
  interval_cases k <;> decide

theorem natReprAux_ne_nil_all_dig :
    ∀ (fuel n : Nat), n < 10 ^ (fuel + 1) →
      natReprAux (fuel + 1) n ≠ [] ∧ ∀ c ∈ natReprAux (fuel + 1) n, isDig c = true := by
  intro fuel
  induction fuel with
  | zero =>
      intro n hn
      have h10 : n < 10 := by simpa using hn
      rw [natReprAux, if_pos h10]
      exact ⟨by simp, by intro c hc; simp at hc; subst hc; exact digitChar_isDig h10⟩
  | succ fuel ih =>
      intro n hn
      by_cases h10 : n < 10
      · rw [natReprAux, if_pos h10]
        exact ⟨by simp, by intro c hc; simp at hc; subst hc; exact digitChar_isDig h10⟩
      · rw [natReprAux, if_neg h10]
        have hdiv : n / 10 < 10 ^ (fuel + 1) := by
          rw [Nat.div_lt_iff_lt_mul (by norm_num : 0 < 10)]
          calc n < 10 ^ (fuel + 1 + 1) := hn
            _ = 10 ^ (fuel + 1) * 10 := by ring
        rcases ih (n / 10) hdiv with ⟨hne, hdig⟩
        refine ⟨by simp, ?_⟩
        intro c hc
        rcases List.mem_append.1 hc with hc | hc
        · exact hdig c hc
        · simp at hc
          subst hc
          exact digitChar_isDig (Nat.mod_lt n (by norm_num))

theorem natRepr_ne_nil (n : Nat) : natRepr n ≠ [] :=
  (natReprAux_ne_nil_all_dig n n (Nat.lt_of_lt_of_le (Nat.lt_pow_self (by norm_num) n)
    (Nat.pow_le_pow_right (by norm_num) (Nat.le_succ n)))).1

theorem natRepr_all_dig (n : Nat) : ∀ c ∈ natRepr n, isDig c = true :=
  (natReprAux_ne_nil_all_dig n n (Nat.lt_of_lt_of_le (Nat.lt_pow_self (by norm_num) n)
    (Nat.pow_le_pow_right (by norm_num) (Nat.le_succ n)))).2

theorem foldl_natReprAux :
    ∀ (fuel n a : Nat), n < 10 ^ (fuel + 1) →
      List.foldl (fun x c => 10 * x + (c.toNat - 48)) a (natReprAux (fuel + 1) n)
        = a * 10 ^ (natReprAux (fuel + 1) n).length + n := by
  intro fuel
  induction fuel with
  | zero =>
      intro n a hn
      have h10 : n < 10 := by simpa using hn
      rw [natReprAux, if_pos h10]
      simp [digitChar_val h10]
      ring
  | succ fuel ih =>
      intro n a hn
      by_cases h10 : n < 10
      · rw [natReprAux, if_pos h10]
        simp [digitChar_val h10]
        ring
      · rw [natReprAux, if_neg h10]
        have hdiv : n / 10 < 10 ^ (fuel + 1) := by
          rw [Nat.div_lt_iff_lt_mul (by norm_num : 0 < 10)]
          calc n < 10 ^ (fuel + 1 + 1) := hn
            _ = 10 ^ (fuel + 1) * 10 := by ring
        rw [List.foldl_append, ih (n / 10) a hdiv]
        simp only [List.foldl_cons, List.foldl_nil, List.length_append,
          List.length_cons, List.length_nil]
        rw [digitChar_val (Nat.mod_lt n (by norm_num))]
        have : 10 * (a * 10 ^ (natReprAux (fuel + 1) (n / 10)).length + n / 10) + n % 10
            = a * 10 ^ ((natReprAux (fuel + 1) (n / 10)).length + (0 + 1))
              + (10 * (n / 10) + n % 10) := by
          ring
        rw [this, Nat.div_add_mod]

theorem digitsVal_natRepr (n : Nat) : digitsVal (natRepr n) = n := by
  unfold digitsVal natRepr
  rw [foldl_natReprAux n n 0 (Nat.lt_of_lt_of_le (Nat.lt_pow_self (by norm_num) n)
    (Nat.pow_le_pow_right (by norm_num) (Nat.le_succ n)))]
  simp

theorem upperChar_digit {c : Char} (h : isDig c = true) : pyUpperChar c = c := by
  have hc : c ∈ digitChars := by simpa [isDig] using h
  fin_cases hc <;> decide

theorem digit_not_ws {c : Char} (h : isDig c = true) : isWs c = false := by
  have hc : c ∈ digitChars := by simpa [isDig] using h
  fin_cases hc <;> decide

theorem pyUpper_digits {l : List Char} (h : ∀ c ∈ l, isDig c = true) : pyUpper l = l := by
  unfold pyUpper
  have := List.map_congr_left (f := pyUpperChar) (g := id)
    (fun c hc => upperChar_digit (h c hc))
  rw [this, List.map_id]

theorem span_digits {dl rest : List Char} (hdl : ∀ c ∈ dl, isDig c = true)
    (hrest : ∀ c, rest.head? = some c → isDig c = false) :
    (dl ++ rest).takeWhile isDig = dl ∧ (dl ++ rest).dropWhile isDig = rest := by
  induction dl with
  | nil =>
      simp only [List.nil_append]
      rcases rest with _ | ⟨c, cs⟩
      · exact ⟨rfl, rfl⟩
      · have := hrest c rfl
        rw [List.takeWhile_cons_of_neg (by simp [this]),
          List.dropWhile_cons_of_neg (by simp [this])]
        exact ⟨rfl, rfl⟩
  | cons d ds ih =>
      have hd := hdl d (by simp)
      rcases ih (fun c hc => hdl c (by simp [hc])) with ⟨h1, h2⟩
      rw [List.cons_append, List.takeWhile_cons_of_pos (by simp [hd]),
        List.dropWhile_cons_of_pos (by simp [hd]), h1, h2]
      exact ⟨rfl, rfl⟩

theorem parseIso_digit_head {c : Char} {l : List Char} (h : isDig c = true) :
    parseIso (c :: l) = none := by
  unfold parseIso
  rcases l with _ | ⟨t, rest⟩
  · rfl
  · have hcp : ¬(c = 'P' ∧ t = 'T') := by
      rintro ⟨rfl, -⟩
      exact absurd h (by decide)
    show (if c = 'P' ∧ t = 'T' then isoTail rest else none) = none
    rw [if_neg hcp]

theorem parseFriendly_digits_M {dl : List Char} (hne : dl ≠ [])
    (hdig : ∀ c ∈ dl, isDig c = true) :
    parseFriendly (dl ++ ['M']) = some (digitsVal dl) := by
  obtain ⟨d, ds, rfl⟩ : ∃ d ds, dl = d :: ds := by
    rcases dl with _ | ⟨d, ds⟩
    · exact absurd rfl hne
    · exact ⟨d, ds, rfl⟩
  have hM : ∀ c, (['M'] : List Char).head? = some c → isDig c = false := by
    intro c hc
    simp at hc
    subst hc
    decide
  have hspan : spanDigits ((d :: ds) ++ ['M']) = (d :: ds, ['M']) := by
    unfold spanDigits
    rw [(span_digits hdig hM).1, (span_digits hdig hM).2]
  have hGH : friendlyGroup 'H' ((d :: ds) ++ ['M']) (d :: ds) ['M']
      = (none, (d :: ds) ++ ['M']) := rfl
  have hskip : skipSpaces ((d :: ds) ++ ['M']) = (d :: ds) ++ ['M'] := by
    rw [List.cons_append]
    exact List.dropWhile_cons_of_neg (by simp [digit_not_ws (hdig d (by simp))])
  have hGM : friendlyGroup 'M' ((d :: ds) ++ ['M']) (d :: ds) ['M']
      = (some (digitsVal (d :: ds)), []) := rfl
  unfold parseFriendly
  dsimp only
  rw [hspan]
  dsimp only
  rw [hGH]
  dsimp only
  rw [hskip, hspan]
  dsimp only
  rw [hGM]
  simp

theorem parseFriendly_digits_H {dl : List Char} (hne : dl ≠ [])
    (hdig : ∀ c ∈ dl, isDig c = true) :
    parseFriendly (dl ++ ['H']) = some (digitsVal dl * 60) := by
  obtain ⟨d, ds, rfl⟩ : ∃ d ds, dl = d :: ds := by
    rcases dl with _ | ⟨d, ds⟩
    · exact absurd rfl hne
    · exact ⟨d, ds, rfl⟩
  have hH : ∀ c, (['H'] : List Char).head? = some c → isDig c = false := by
    intro c hc
    simp at hc
    subst hc
    decide
  have hspan : spanDigits ((d :: ds) ++ ['H']) = (d :: ds, ['H']) := by
    unfold spanDigits
    rw [(span_digits hdig hH).1, (span_digits hdig hH).2]
  have hGH : friendlyGroup 'H' ((d :: ds) ++ ['H']) (d :: ds) ['H']
      = (some (digitsVal (d :: ds)), []) := rfl
  unfold parseFriendly
  dsimp only
  rw [hspan]
  dsimp only
  rw [hGH]
  dsimp only
  rw [show friendlyGroup 'M' (skipSpaces []) (spanDigits (skipSpaces [])).1
    (spanDigits (skipSpaces [])).2 = (none, []) from rfl]
  simp

theorem parseFriendly_digits_HM {dl ml : List Char} (hdne : dl ≠ [])
    (hddig : ∀ c ∈ dl, isDig c = true) (hmne : ml ≠ [])
    (hmdig : ∀ c ∈ ml, isDig c = true) :
    parseFriendly (dl ++ 'H' :: ' ' :: (ml ++ ['M']))
      = some (digitsVal dl * 60 + digitsVal ml) := by
  obtain ⟨d, ds, rfl⟩ : ∃ d ds, dl = d :: ds := by
    rcases dl with _ | ⟨d, ds⟩
    · exact absurd rfl hdne
    · exact ⟨d, ds, rfl⟩
  obtain ⟨e, es, rfl⟩ : ∃ e es, ml = e :: es := by
    rcases ml with _ | ⟨e, es⟩
    · exact absurd rfl hmne
    · exact ⟨e, es, rfl⟩
  have hHrest : ∀ c, ('H' :: ' ' :: ((e :: es) ++ ['M']) : List Char).head? = some c →
      isDig c = false := by
    intro c hc
    simp at hc
    subst hc
    decide
  have hM : ∀ c, (['M'] : List Char).head? = some c → isDig c = false := by
    intro c hc
    simp at hc
    subst hc
    decide
  have hspan1 : spanDigits ((d :: ds) ++ 'H' :: ' ' :: ((e :: es) ++ ['M']))
      = (d :: ds, 'H' :: ' ' :: ((e :: es) ++ ['M'])) := by
    unfold spanDigits
    rw [(span_digits hddig hHrest).1, (span_digits hddig hHrest).2]
  have hGH : friendlyGroup 'H' ((d :: ds) ++ 'H' :: ' ' :: ((e :: es) ++ ['M']))
      (d :: ds) ('H' :: ' ' :: ((e :: es) ++ ['M']))
      = (some (digitsVal (d :: ds)), ' ' :: ((e :: es) ++ ['M'])) := rfl
  have hskip2 : skipSpaces (' ' :: ((e :: es) ++ ['M'])) = (e :: es) ++ ['M'] := by
    unfold skipSpaces
    rw [List.dropWhile_cons_of_pos (by decide), List.cons_append,
      List.dropWhile_cons_of_neg (by simp [digit_not_ws (hmdig e (by simp))])]
  have hspan2 : spanDigits ((e :: es) ++ ['M']) = (e :: es, ['M']) := by
    unfold spanDigits
    rw [(span_digits hmdig hM).1, (span_digits hmdig hM).2]
  have hGM : friendlyGroup 'M' ((e :: es) ++ ['M']) (e :: es) ['M']
      = (some (digitsVal (e :: es)), []) := rfl
  unfold parseFriendly
  dsimp only
  rw [hspan1]
  dsimp only
  rw [hGH]
  dsimp only
  rw [hskip2, hspan2]
  dsimp only
  rw [hGM]
  simp

theorem data_mk_append_one (l : List Char) (s : String) :
    (String.mk l ++ s).data = l ++ s.data := by
  rw [String.data_append]

theorem mk_append_ne_empty (l : List Char) (c : Char) (s : String) (hs : s.data = [c]) :
    String.mk l ++ s ≠ "" := by
  intro h
  have hd := congrArg String.data h
  rw [data_mk_append_one, hs] at hd
  have : (l ++ [c]).length = 0 := by rw [hd]; rfl
  simp at this

theorem pyStrip_digits_marker (dl tail : List Char) (hdl : dl ≠ [])
    (hdig : ∀ c ∈ dl, isDig c = true) (htail : ∀ c, (dl ++ tail).getLast? = some c →
      isWs c = false) :
    pyStrip (dl ++ tail) = dl ++ tail := by
  obtain ⟨d, ds, rfl⟩ : ∃ d ds, dl = d :: ds := by
    rcases dl with _ | ⟨d, ds⟩
    · exact absurd rfl hdl
    · exact ⟨d, ds, rfl⟩
  apply pyStrip_eq_self
  · intro c hc
    rw [List.cons_append, List.head?_cons, Option.some_inj] at hc
    rw [← hc]
    exact digit_not_ws (hdig d (by simp))
  · exact htail

/-- Parsing after rendering: the `"37m"` form. -/
theorem duration_parse_m (a : Nat) :
    duration_to_minutes (some (String.mk (natRepr a) ++ "m")) = some a := by
  have hdata : (String.mk (natRepr a) ++ "m").data = natRepr a ++ ['m'] :=
    data_mk_append_one _ _
  unfold duration_to_minutes
  dsimp only
  rw [if_neg (mk_append_ne_empty (natRepr a) 'm' "m" rfl)]
  rw [hdata]
  rw [pyStrip_digits_marker (natRepr a) ['m'] (natRepr_ne_nil a) (natRepr_all_dig a)
    (by intro c hc; rw [List.getLast?_concat] at hc; simp at hc; subst hc; decide)]
  have hupper : pyUpper (natRepr a ++ ['m']) = natRepr a ++ ['M'] := by
    unfold pyUpper
    rw [List.map_append, ← pyUpper, pyUpper_digits (natRepr_all_dig a)]
    rfl
  rw [hupper]
  obtain ⟨d, ds, hds⟩ : ∃ d ds, natRepr a = d :: ds := by
    rcases h : natRepr a with _ | ⟨d, ds⟩
    · exact absurd h (natRepr_ne_nil a)
    · exact ⟨d, ds, rfl⟩
  have hiso : parseIso (natRepr a ++ ['M']) = none := by
    rw [hds, List.cons_append]
    exact parseIso_digit_head (natRepr_all_dig a d (by rw [hds]; simp))
  rw [hiso]
  dsimp only
  rw [parseFriendly_digits_M (natRepr_ne_nil a) (natRepr_all_dig a), digitsVal_natRepr]

/-- Parsing after rendering: the `"2h"` form. -/
theorem duration_parse_h (a : Nat) :
    duration_to_minutes (some (String.mk (natRepr a) ++ "h")) = some (a * 60) := by
  have hdata : (String.mk (natRepr a) ++ "h").data = natRepr a ++ ['h'] :=
    data_mk_append_one _ _
  unfold duration_to_minutes
  dsimp only
  rw [if_neg (mk_append_ne_empty (natRepr a) 'h' "h" rfl)]
  rw [hdata]
  rw [pyStrip_digits_marker (natRepr a) ['h'] (natRepr_ne_nil a) (natRepr_all_dig a)
    (by intro c hc; rw [List.getLast?_concat] at hc; simp at hc; subst hc; decide)]
  have hupper : pyUpper (natRepr a ++ ['h']) = natRepr a ++ ['H'] := by
    unfold pyUpper
    rw [List.map_append, ← pyUpper, pyUpper_digits (natRepr_all_dig a)]
    rfl
  rw [hupper]
  obtain ⟨d, ds, hds⟩ : ∃ d ds, natRepr a = d :: ds := by
    rcases h : natRepr a with _ | ⟨d, ds⟩
    · exact absurd h (natRepr_ne_nil a)
    · exact ⟨d, ds, rfl⟩
  have hiso : parseIso (natRepr a ++ ['H']) = none := by
    rw [hds, List.cons_append]
    exact parseIso_digit_head (natRepr_all_dig a d (by rw [hds]; simp))
  rw [hiso]
  dsimp only
  rw [parseFriendly_digits_H (natRepr_ne_nil a) (natRepr_all_dig a), digitsVal_natRepr]

/-- Parsing after rendering: the `"2h 35m"` form. -/
theorem duration_parse_hm (a b : Nat) :
    duration_to_minutes (some (String.mk (natRepr a) ++ "h " ++ String.mk (natRepr b) ++ "m"))
      = some (a * 60 + b) := by
  have hdata : (String.mk (natRepr a) ++ "h " ++ String.mk (natRepr b) ++ "m").data
      = natRepr a ++ 'h' :: ' ' :: (natRepr b ++ ['m']) := by
    rw [String.data_append, String.data_append, String.data_append]
    show natRepr a ++ ['h', ' '] ++ natRepr b ++ ['m']
      = natRepr a ++ 'h' :: ' ' :: (natRepr b ++ ['m'])
    simp
  unfold duration_to_minutes
  dsimp only
  rw [if_neg (by
    intro h
    have hd := congrArg String.data h
    rw [hdata] at hd
    have : (natRepr a ++ 'h' :: ' ' :: (natRepr b ++ ['m'])).length = 0 := by rw [hd]; rfl
    simp at this)]
  rw [hdata]
  rw [pyStrip_digits_marker (natRepr a) ('h' :: ' ' :: (natRepr b ++ ['m']))
    (natRepr_ne_nil a) (natRepr_all_dig a)
    (by
      intro c hc
      have : (natRepr a ++ 'h' :: ' ' :: (natRepr b ++ ['m'])).getLast? = some 'm' := by
        have h1 : natRepr a ++ 'h' :: ' ' :: (natRepr b ++ ['m'])
            = (natRepr a ++ 'h' :: ' ' :: natRepr b) ++ ['m'] := by simp
        rw [h1, List.getLast?_concat]
      rw [this] at hc
      simp at hc
      subst hc
      decide)]
  have hupper : pyUpper (natRepr a ++ 'h' :: ' ' :: (natRepr b ++ ['m']))
      = natRepr a ++ 'H' :: ' ' :: (natRepr b ++ ['M']) := by
    unfold pyUpper
    rw [List.map_append]
    rw [show List.map pyUpperChar (natRepr a) = natRepr a from pyUpper_digits (natRepr_all_dig a)]
    simp only [List.map_cons, List.map_append]
    rw [show List.map pyUpperChar (natRepr b) = natRepr b from pyUpper_digits (natRepr_all_dig b)]
    rfl
  rw [hupper]
  obtain ⟨d, ds, hds⟩ : ∃ d ds, natRepr a = d :: ds := by
    rcases h : natRepr a with _ | ⟨d, ds⟩
    · exact absurd h (natRepr_ne_nil a)
    · exact ⟨d, ds, rfl⟩
  have hiso : parseIso (natRepr a ++ 'H' :: ' ' :: (natRepr b ++ ['M'])) = none := by
    rw [hds, List.cons_append]
    exact parseIso_digit_head (natRepr_all_dig a d (by rw [hds]; simp))
  rw [hiso]
  dsimp only
  rw [parseFriendly_digits_HM (natRepr_ne_nil a) (natRepr_all_dig a)
    (natRepr_ne_nil b) (natRepr_all_dig b), digitsVal_natRepr, digitsVal_natRepr]

/-- **C10.** For every non-negative minute count `m`, rendering with
`_minutes_to_text` and parsing back with `_duration_to_minutes` yields `m`
again — the two duration helpers of the itinerary formatter are mutually
inverse on minute counts. -/
theorem c10_duration_roundtrip (m : Nat) :
    duration_to_minutes (some (minutes_to_text (some m))) = some m := by
  unfold minutes_to_text
  dsimp only
  by_cases h0 : m / 60 = 0
  · rw [if_pos h0]
    have hlt : m < 60 := by omega
    rw [Nat.mod_eq_of_lt hlt]
    exact duration_parse_m m
  · rw [if_neg h0]
    by_cases hr : m % 60 = 0
    · rw [if_pos hr, duration_parse_h (m / 60)]
      congr 1
      omega
    · rw [if_neg hr, duration_parse_hm (m / 60) (m % 60)]
      congr 1
      omega

end NaviGO
